import Mathlib

/-!
A shallow embedding of `main.go` of playnite-boot-splash.

The program is a linear sequence of operating-system effects.  The embedding
has three layers:

* the pieces of the Go standard library the program calls (`path/filepath`,
  `fmt.Errorf`, `log`, `os`, `os/exec`, `os/user`), modelled from their Go
  sources and documentation; every outcome the operating system decides is
  read from an explicit environment `Env`;
* the four functions of `main.go` besides `main` (`initLogFile`,
  `handleError`, `extractSplashVideo`, `prepareVLCCommand`) and `main`
  itself, translated statement by statement;
* the theorems.

Go strings are rendered as Lean `String`s; `[]byte` is `List UInt8`.  Path
handling follows the slash-separated (Unix) flavour of `path/filepath`, the
flavour in which the paths of the specification are written.  The Windows
flavour (backslash separator, volume names) is not modelled: what is proved
about the shape of a joined path, as opposed to its being the result of
`filepath.Join`, is a statement about builds for slash-separated platforms.
-/

namespace PlayniteBootSplash

/-! ## `strings` and `path/filepath` -/

namespace strings

/-- Go `strings.Join(elems, sep)`. -/
def Join (elems : List String) (sep : String) : String :=
  sep.intercalate elems

end strings

namespace filepath

/-- Go `filepath.Separator` on slash-separated platforms (every platform Go
supports except Windows). -/
def Separator : Char := '/'

/-- Go `os.IsPathSeparator`. -/
def IsPathSeparator (c : Char) : Bool := c == Separator

/-- The test `r == n || os.IsPathSeparator(path[r])` of `Clean`, on the part of
the path not yet read. -/
def atElemEnd : List Char → Bool
  | [] => true
  | c :: _ => IsPathSeparator c

/-- The inner loop of the `..` case of `Clean`, after the first `out.w--`:
`for out.w > dotdot && !os.IsPathSeparator(out.index(out.w)) { out.w-- }`.
The buffer is held reversed, `c` is the byte at index `out.w` (the one just
dropped) and `rb` is `buf[0:out.w]` reversed. -/
def backtrackLoop (dotdot : Nat) : Char → List Char → List Char
  | _, [] => []
  | c, d :: rb =>
    if (d :: rb).length > dotdot && !IsPathSeparator c then backtrackLoop dotdot d rb
    else d :: rb

/-- The `out.w > dotdot` branch of the `..` case of `Clean`: drop the last
element of the buffer together with the separator in front of it. -/
def backtrack (dotdot : Nat) (out : List Char) : List Char :=
  match out.reverse with
  | [] => []
  | c :: rb => (backtrackLoop dotdot c rb).reverse

/-- The body of the loop of Go `filepath.Clean`, the `switch` on `path[r]`.
`c` is `path[r]`, `rest` is `path[r+1:]`, `out` the bytes written so far
(`out.w = out.length`) and `dotdot` the index where `..` must stop.  The result
is the unread part, the buffer and `dotdot` after the iteration. -/
def cleanStep (rooted : Bool) (c : Char) (rest out : List Char) (dotdot : Nat) :
    List Char × List Char × Nat :=
  if IsPathSeparator c then
    -- empty path element
    (rest, out, dotdot)
  else if c = '.' ∧ atElemEnd rest = true then
    -- . element
    (rest, out, dotdot)
  else if c = '.' ∧ rest.head? = some '.' ∧ atElemEnd rest.tail = true then
    -- .. element: remove to last separator
    if out.length > dotdot then
      -- can backtrack
      (rest.tail, backtrack dotdot out, dotdot)
    else if rooted = false then
      -- cannot backtrack, but not rooted, so append .. element
      let out1 := (if out.length > 0 then out ++ [Separator] else out) ++ ['.', '.']
      (rest.tail, out1, out1.length)
    else
      (rest.tail, out, dotdot)
  else
    -- real path element: add slash if needed, then copy the element
    let out1 :=
      if (rooted = true ∧ out.length ≠ 1) ∨ (rooted = false ∧ out.length ≠ 0) then
        out ++ [Separator]
      else out
    (rest.dropWhile (fun d => !IsPathSeparator d),
      out1 ++ c :: rest.takeWhile (fun d => !IsPathSeparator d), dotdot)

/-- The loop `for r < n { ... }` of Go `filepath.Clean`, on the unread part
`path[r:]`; the result is the buffer when the path is used up.  Every
iteration reads at least one byte, so `fuel = path.length` is enough
(`cleanLoop_fuel`). -/
def cleanLoop (rooted : Bool) : Nat → List Char → List Char → Nat → List Char
  | 0, _, out, _ => out
  | _ + 1, [], out, _ => out
  | fuel + 1, c :: rest, out, dotdot =>
    let next := cleanStep rooted c rest out dotdot
    cleanLoop rooted fuel next.1 next.2.1 next.2.2

/-- A path element the loop of `Clean` copies as it is: it contains no
separator and does not start with a dot (so it is neither `.` nor `..`). -/
def PlainElem (e : List Char) : Prop :=
  ∃ c cs, e = c :: cs ∧ c ≠ '.' ∧ IsPathSeparator c = false ∧ ∀ x ∈ cs, IsPathSeparator x = false

/-- Go `filepath.Clean` (no volume names, `FromSlash` is the identity). -/
def Clean (path : String) : String :=
  match path.data with
  | [] => "."
  | c :: rest =>
    let rooted := IsPathSeparator c
    let out :=
      if rooted then cleanLoop true rest.length rest [Separator] 1
      else cleanLoop false (c :: rest).length (c :: rest) [] 0
    -- Turn empty string into "."
    String.mk (if out.length = 0 then ['.'] else out)

/-- The first non-empty element onwards, as Go `filepath.join` selects it:
`for i, e := range elem { if e != "" { return Clean(strings.Join(elem[i:], "/")) } }`. -/
def dropEmpty : List String → List String
  | [] => []
  | e :: es => if e ≠ "" then e :: es else dropEmpty es

/-- Go `filepath.Join`. -/
def Join (elem : List String) : String :=
  match dropEmpty elem with
  | [] => ""
  | e :: es => Clean (strings.Join (e :: es) (String.singleton Separator))

end filepath

/-! ## Errors: `error` values and `fmt.Errorf` -/

/-- A Go `error` value: a plain error (what `errors.New` and the operating
system produce) or a `*fmt.wrapError`, which carries its message and the error
it wraps. -/
inductive GoError
  | errorString (s : String)
  | wrapError (msg : String) (err : GoError)
  deriving DecidableEq, Repr

/-- The method `Error() string`. -/
def GoError.Error : GoError → String
  | .errorString s => s
  | .wrapError msg _ => msg

/-- The method `Unwrap() error` (`nil` for an error that wraps nothing). -/
def GoError.Unwrap : GoError → Option GoError
  | .errorString _ => none
  | .wrapError _ err => some err

namespace fmt

/-- Go `fmt.Errorf(context + "%w", err)`: the only shape of format string in the
program, a fixed text followed by a final `%w`. -/
def Errorf (context : String) (err : GoError) : GoError :=
  .wrapError (context ++ err.Error) err

end fmt

/-! ## The world the program runs in -/

/-- A Go `[]byte`. -/
abbrev Bytes := List UInt8

/-- The bytes of a Go string (its UTF-8 encoding). -/
def stringBytes (s : String) : Bytes :=
  s.toUTF8.data.toList

namespace os

/-- Go `os.O_RDWR`: open the file read-write. -/
def O_RDWR : Nat := 0x2

/-- Go `os.O_CREATE`: create a new file if none exists. -/
def O_CREATE : Nat := 0x40

/-- Go `os.O_TRUNC`: truncate the file when opened. -/
def O_TRUNC : Nat := 0x200

/-- Go `os.O_APPEND`: append data to the file when writing. -/
def O_APPEND : Nat := 0x400

/-- Whether the bit `bit` is set in the flag word `flag`. -/
def hasFlag (flag bit : Nat) : Bool := flag &&& bit != 0

/-- An open file (Go `*os.File`): the name it was opened under, the flags of
the open call and the current offset of the descriptor. -/
structure File where
  name : String
  flag : Nat
  offset : Nat
  deriving DecidableEq, Repr

end os

namespace user

/-- Go `user.User`. -/
structure User where
  Uid : String
  Gid : String
  Username : String
  Name : String
  HomeDir : String
  deriving DecidableEq, Repr

end user

namespace exec

/-- Go `exec.Cmd`, reduced to what `exec.Command(name, arg...)` stores from its
parameters: `Args` is the name followed by the arguments, and `Path` starts as
the name.  For a name without a separator Go then looks the name up on the
search path and puts the resolved path into `Path`; the model leaves `Path` as
the name and lets the environment decide what `Start` does with the command.
The theorems identify the player command by `Args`, not by `Path`. -/
structure Cmd where
  Path : String
  Args : List String
  deriving DecidableEq, Repr

/-- Go `exec.Command(name, arg...)`. -/
def Command (name : String) (arg : List String) : Cmd :=
  { Path := name, Args := name :: arg }

end exec

/-- The destination of the standard logger (Go `io.Writer`): standard error,
the default, or a `*os.File` (`none` is the nil pointer). -/
inductive Writer
  | stderr
  | file (f : Option os.File)
  deriving DecidableEq, Repr

/-- One call of the program into the effectful part of the standard library,
with its outcome where it has one. -/
inductive Event
  | openFile (name : String) (flag : Nat) (ok : Bool)
  | setOutput (out : Writer)
  | logOutput (s : String)
  | lookPath (file : String) (ok : Bool)
  | userCurrent (ok : Bool)
  | mkdirTemp (dir pattern : String) (name : String) (ok : Bool)
  | writeFile (name : String) (data : Bytes) (ok : Bool)
  | start (cmd : exec.Cmd) (ok : Bool)
  | close (name : String)
  | exit (code : Nat)
  deriving DecidableEq, Repr

/-- A fallible call that was attempted and failed. -/
def Event.failed : Event → Bool
  | .openFile _ _ ok => !ok
  | .lookPath _ ok => !ok
  | .userCurrent ok => !ok
  | .mkdirTemp _ _ _ ok => !ok
  | .writeFile _ _ ok => !ok
  | .start _ ok => !ok
  | _ => false

/-- The state the program acts on: the file system (regular files by path,
directories by path), the output of the standard logger, what has been written
to standard error, and the calls made so far. -/
structure World where
  files : String → Option Bytes
  dirs : String → Bool
  logOutput : Writer
  stderr : Bytes
  trace : List Event

/-- The world at process start: nothing traced, the logger writes to standard
error. -/
def World.init (files : String → Option Bytes) (dirs : String → Bool) : World :=
  { files := files, dirs := dirs, logOutput := .stderr, stderr := [], trace := [] }

/-- What a failed `os.WriteFile` leaves behind: the error, and the contents of
the file if the call got as far as creating or truncating it. -/
structure WriteFailure where
  err : GoError
  residue : Option Bytes

/-- Everything the operating system decides: the timestamp header of each log
record (indexed by the number of calls traced before it) and the outcome of
each fallible call. -/
structure Env where
  logHeader : Nat → String
  openFile : String → Option GoError
  lookPath : String → Except GoError String
  userCurrent : Except GoError user.User
  mkdirTemp : String → String → Except GoError String
  writeFile : String → Option WriteFailure
  start : exec.Cmd → Option GoError

/-- How a computation ends: the process exited with a code, or the computation
returned a value. -/
inductive Outcome (α : Type)
  | exit (code : Nat) (w : World)
  | ret (a : α) (w : World)

/-- A computation on the world that may exit the process. -/
def M (α : Type) : Type := World → Outcome α

instance : Monad M where
  pure a := fun w => .ret a w
  bind m f := fun w =>
    match m w with
    | .exit code w1 => .exit code w1
    | .ret a w1 => f a w1

/-- Record a call in the trace. -/
def emit (e : Event) : M Unit :=
  fun w => .ret () { w with trace := w.trace ++ [e] }

/-- The final world of an outcome. -/
def Outcome.world {α : Type} : Outcome α → World
  | .exit _ w => w
  | .ret _ w => w

/-- The exit code of the process when the outcome is that of `main`: the code
passed to `os.Exit`, or 0 when `main` returns. -/
def Outcome.exitCode {α : Type} : Outcome α → Nat
  | .exit code _ => code
  | .ret _ _ => 0

/-- The value a computation returned, if it returned. -/
def Outcome.value? {α : Type} : Outcome α → Option α
  | .exit _ _ => none
  | .ret a _ => some a

/-- The command of a process-start attempt. -/
def Event.startCmd? : Event → Option exec.Cmd
  | .start c _ => some c
  | _ => none

/-- The commands whose start was attempted, in order. -/
def startedCmds (tr : List Event) : List exec.Cmd :=
  tr.filterMap Event.startCmd?

/-- Contents of a file after `b` is written at `offset`. -/
def writeAt (old : Bytes) (offset : Nat) (b : Bytes) : Bytes :=
  old.take offset ++ List.replicate (offset - old.length) 0 ++ b ++ old.drop (offset + b.length)

/-- The method `Write` of the logger output.  A file opened with `O_APPEND` is
written at its end, any other at the offset of the descriptor; a file that has
been removed from the file system is not brought back, and a write through a
nil `*os.File` only returns an error, which the logger discards. -/
def Writer.Write (out : Writer) (b : Bytes) (w : World) : World :=
  match out with
  | .stderr => { w with stderr := w.stderr ++ b }
  | .file none => w
  | .file (some f) =>
    match w.files f.name with
    | none => w
    | some old =>
      let off := if os.hasFlag f.flag os.O_APPEND then old.length else f.offset
      { w with
        files := fun p => if p = f.name then some (writeAt old off b) else w.files p
        logOutput :=
          if w.logOutput = .file (some f) then .file (some { f with offset := off + b.length })
          else w.logOutput }

namespace os

/-- Go `os.Exit`. -/
def Exit {α : Type} (code : Nat) : M α :=
  fun w => .exit code { w with trace := w.trace ++ [.exit code] }

/-- Go `os.OpenFile(name, flag, perm)`.  Whether the call fails is the
environment's decision; on success an existing file is kept (truncated under
`O_TRUNC`) and a missing one is created empty under `O_CREATE`. -/
def OpenFile (env : Env) (name : String) (flag : Nat) (_perm : Nat) :
    M (Option File × Option GoError) := fun w =>
  match env.openFile name with
  | some err =>
    .ret (none, some err) { w with trace := w.trace ++ [.openFile name flag false] }
  | none =>
    match w.files name with
    | some old =>
      .ret (some { name := name, flag := flag, offset := 0 }, none)
        { w with
          files := fun p => if p = name then some (if hasFlag flag O_TRUNC then [] else old)
            else w.files p
          trace := w.trace ++ [.openFile name flag true] }
    | none =>
      if hasFlag flag O_CREATE then
        .ret (some { name := name, flag := flag, offset := 0 }, none)
          { w with
            files := fun p => if p = name then some [] else w.files p
            trace := w.trace ++ [.openFile name flag true] }
      else
        .ret (none, some (.errorString ("open " ++ name ++ ": no such file or directory")))
          { w with trace := w.trace ++ [.openFile name flag false] }

/-- The method `Close` of `*os.File`; on a nil receiver it only returns an
error, which the program discards. -/
def File.Close (f : Option File) : M Unit :=
  match f with
  | some g => emit (.close g.name)
  | none => pure ()

/-- Go `os.MkdirTemp(dir, pattern)`: the environment picks the name of the new
directory or fails. -/
def MkdirTemp (env : Env) (dir pattern : String) : M (String × Option GoError) := fun w =>
  match env.mkdirTemp dir pattern with
  | .error err =>
    .ret ("", some err) { w with trace := w.trace ++ [.mkdirTemp dir pattern "" false] }
  | .ok name =>
    .ret (name, none)
      { w with
        dirs := fun p => if p = name then true else w.dirs p
        trace := w.trace ++ [.mkdirTemp dir pattern name true] }

/-- Go `os.WriteFile(name, data, perm)`: on success the file holds exactly
`data`; on failure it holds whatever the failed call left. -/
def WriteFile (env : Env) (name : String) (data : Bytes) (_perm : Nat) : M (Option GoError) :=
  fun w =>
  match env.writeFile name with
  | none =>
    .ret none
      { w with
        files := fun p => if p = name then some data else w.files p
        trace := w.trace ++ [.writeFile name data true] }
  | some failure =>
    .ret (some failure.err)
      { w with
        files := fun p =>
          if p = name then (match failure.residue with | some b => some b | none => w.files p)
          else w.files p
        trace := w.trace ++ [.writeFile name data false] }

end os

namespace log

/-- Go `log.SetOutput`. -/
def SetOutput (out : Writer) : M Unit :=
  fun w => .ret () { w with logOutput := out, trace := w.trace ++ [.setOutput out] }

/-- The line the standard logger writes for the text `s`: the header, the text,
and a newline unless the text already ends in one. -/
def formatLine (header s : String) : String :=
  header ++ s ++ (if s.data.getLast? = some '\n' then "" else "\n")

/-- The method `Output` of the standard logger: format one line and write it to
the current output.  The trace records the text `s`; what is written is the line
`formatLine header s`. -/
def Output (env : Env) (s : String) : M Unit := fun w =>
  let line := formatLine (env.logHeader w.trace.length) s
  let w1 := w.logOutput.Write (stringBytes line) w
  .ret () { w1 with trace := w1.trace ++ [.logOutput s] }

/-- Go `log.Println(s)`: `Output(fmt.Sprintln(s))`. -/
def Println (env : Env) (s : String) : M Unit :=
  Output env (s ++ "\n")

/-- Go `log.Printf`, applied to the formatted text. -/
def Printf (env : Env) (s : String) : M Unit :=
  Output env s

/-- Go `log.Fatalf`, applied to the formatted text: `Output` followed by
`os.Exit(1)`. -/
def Fatalf {α : Type} (env : Env) (s : String) : M α := do
  Output env s
  os.Exit 1

end log

namespace exec

/-- Go `exec.LookPath`. -/
def LookPath (env : Env) (file : String) : M (String × Option GoError) := fun w =>
  match env.lookPath file with
  | .ok path => .ret (path, none) { w with trace := w.trace ++ [.lookPath file true] }
  | .error err => .ret ("", some err) { w with trace := w.trace ++ [.lookPath file false] }

/-- The method `Start` of `*exec.Cmd`: the process is started or an error is
returned; `Start` does not wait for the process. -/
def Cmd.Start (env : Env) (c : Cmd) : M (Option GoError) := fun w =>
  match env.start c with
  | none => .ret none { w with trace := w.trace ++ [.start c true] }
  | some err => .ret (some err) { w with trace := w.trace ++ [.start c false] }

end exec

namespace user

/-- Go `user.Current`. -/
def Current (env : Env) : M (Option User × Option GoError) := fun w =>
  match env.userCurrent with
  | .ok u => .ret (some u, none) { w with trace := w.trace ++ [.userCurrent true] }
  | .error err => .ret (none, some err) { w with trace := w.trace ++ [.userCurrent false] }

end user

/-- Dereference of a Go pointer: a nil pointer panics, and an unrecovered panic
exits the process with status 2.  In `main` the pointer is never nil where it
is dereferenced: `user.Current` returns a user whenever it returns no error. -/
def deref {α : Type} : Option α → M α
  | some a => pure a
  | none => os.Exit 2

/-! ## The program: `main.go` -/

/-- `initLogFile` initializes the log file for logging application activity. -/
def initLogFile (env : Env) (fileName : String) : M (Option os.File × Option GoError) := do
  let (logFile, err) ← os.OpenFile env fileName (os.O_APPEND ||| os.O_RDWR ||| os.O_CREATE) 0o644
  if let some e := err then
    return (none, some e)
  log.SetOutput (.file logFile)
  log.Println env "Log file initialized"
  return (logFile, none)

/-- `handleError` logs an error message and exits the application. -/
def handleError (env : Env) (err : Option GoError) : M Unit :=
  match err with
  | some e => log.Fatalf env ("Error: " ++ e.Error)
  | none => pure ()

/-- `extractSplashVideo` creates a temporary file for the splash video and
writes its content. -/
def extractSplashVideo (env : Env) (videoContent : Bytes) : M (String × Option GoError) := do
  let (tempDir, err) ← os.MkdirTemp env "" "splash"
  if let some e := err then
    return ("", some (fmt.Errorf "failed to create temporary directory: " e))
  let splashPath := filepath.Join [tempDir, "splash.mp4"]
  let err ← os.WriteFile env splashPath videoContent 0o644
  if let some e := err then
    return ("", some (fmt.Errorf "failed to write splash video to temporary file: " e))
  log.Printf env ("Temporary splash video created at: " ++ splashPath)
  return (splashPath, none)

/-- `prepareVLCCommand` constructs the VLC command with necessary arguments. -/
def prepareVLCCommand (videoPath : String) : exec.Cmd :=
  let args := [
    "--fullscreen",
    "--video-on-top",
    "--play-and-exit",
    "--intf", "dummy",
    "--dummy-quiet",
    "--no-osd",
    videoPath
  ]
  exec.Command "vlc" args

/-- The function `main`.  The deferred `logFile.Close()` runs when `main`
returns and is skipped when the process exits through `handleError`. -/
def main (env : Env) (videoContent : Bytes) : M Unit := do
  -- Initialize log file
  let (logFile, err) ← initLogFile env "logFile.log"
  if let some e := err then
    handleError env (some (fmt.Errorf "failed to initialize log file: " e))
  -- Check if VLC is available
  let (_, err) ← exec.LookPath env "vlc"
  if let some e := err then
    handleError env
      (some (fmt.Errorf "VLC not found in PATH. Ensure VLC is installed and accessible: " e))
  -- Get current user
  let (currentUser, err) ← user.Current env
  if let some e := err then
    handleError env (some (fmt.Errorf "failed to retrieve current user: " e))
  -- Create a temporary video file for the splash
  let (videoPath, err) ← extractSplashVideo env videoContent
  if let some e := err then
    handleError env (some (fmt.Errorf "failed to create temporary splash video file: " e))
  -- Prepare VLC command
  let playVideoCmd := prepareVLCCommand videoPath
  -- Prepare Playnite command
  let u ← deref currentUser
  let playniteExe :=
    filepath.Join [u.HomeDir, "AppData", "Local", "Playnite", "Playnite.fullscreenapp.exe"]
  let launchPlayniteCmd := exec.Command playniteExe ["--hidesplashscreen"]
  -- Start VLC to play the video
  log.Println env "Starting VLC to play splash video..."
  let err ← playVideoCmd.Start env
  if let some e := err then
    handleError env (some (fmt.Errorf "failed to start VLC: " e))
  -- Start Playnite
  log.Println env "Launching Playnite..."
  let err ← launchPlayniteCmd.Start env
  if let some e := err then
    handleError env (some (fmt.Errorf "failed to start Playnite: " e))
  os.File.Close logFile

/-- A run of the program from process start. -/
def run (env : Env) (videoContent : Bytes) (files : String → Option Bytes)
    (dirs : String → Bool) : Outcome Unit :=
  main env videoContent (World.init files dirs)

/-! ## Sample environments -/

/-- A sample user with an ordinary home directory. -/
def sampleUser : user.User :=
  { Uid := "1000", Gid := "1000", Username := "player", Name := "Player",
    HomeDir := "/home/player" }

/-- A sample environment in which every step succeeds. -/
def sampleEnv : Env :=
  { logHeader := fun _ => "2025/01/01 12:00:00 "
    openFile := fun _ => none
    lookPath := fun file => .ok ("/usr/bin/" ++ file)
    userCurrent := .ok sampleUser
    mkdirTemp := fun _ pattern => .ok ("/tmp/" ++ pattern ++ "1234567890")
    writeFile := fun _ => none
    start := fun _ => none }

/-- The sample environment without `vlc` on the search path. -/
def sampleEnvNoVLC : Env :=
  { sampleEnv with lookPath := fun _ => .error (.errorString "executable file not found") }

/-- The sample environment with a full disk: the write of the video fails
after the file has been created. -/
def sampleEnvWriteFails : Env :=
  { sampleEnv with
    writeFile := fun _ => some { err := .errorString "no space left on device", residue := some [] } }

/-- The sample environment in which `vlc` cannot be started. -/
def sampleEnvPlayerFails : Env :=
  { sampleEnv with
    start := fun c =>
      if c.Args.head? = some "vlc" then some (.errorString "permission denied") else none }

/-- The sample environment in which exactly one command cannot be started: the
player command for the video in the temporary directory of the sample
environment. -/
def sampleEnvOnlyPlayerFails : Env :=
  { sampleEnv with
    start := fun c =>
      if c = prepareVLCCommand "/tmp/splash1234567890/splash.mp4" then
        some (.errorString "permission denied")
      else none }

/-- The sample environment in which the target application cannot be
started. -/
def sampleEnvTargetFails : Env :=
  { sampleEnv with
    start := fun c =>
      if c.Args.head? = some "vlc" then none
      else some (.errorString "no such file or directory") }

/-- The sample environment for a user whose home directory is the root. -/
def sampleEnvRootHome : Env :=
  { sampleEnv with userCurrent := .ok { sampleUser with HomeDir := "/" } }

/-- Sample embedded bytes. -/
def sampleVideo : Bytes := [0, 0, 0, 32, 102, 116, 121, 112]

/-- A file system without regular files. -/
def noFiles : String → Option Bytes := fun _ => none

/-- A file system without directories. -/
def noDirs : String → Bool := fun _ => false

/-! ## Facts about `filepath.Clean` and `filepath.Join` -/

namespace filepath

/-- The model of `Clean` and `Join` on cases of the Go documentation and test
suite. -/
theorem Clean_Join_samples :
    Clean "" = "." ∧ Clean "/" = "/" ∧ Clean "abc" = "abc" ∧ Clean "abc/def" = "abc/def"
      ∧ Clean "abc//def//ghi" = "abc/def/ghi" ∧ Clean "abc/./def" = "abc/def"
      ∧ Clean "/abc/" = "/abc" ∧ Clean "abc/def/../ghi/../jkl" = "abc/jkl"
      ∧ Clean "abc/def/../../.." = ".." ∧ Clean "/abc/def/../../.." = "/"
      ∧ Clean "abc/./../def" = "def" ∧ Clean "../../abc" = "../../abc"
      ∧ Clean "abc/../../././../def" = "../../def"
      ∧ Join ["a", "b"] = "a/b" ∧ Join ["a", ""] = "a" ∧ Join ["", "b"] = "b"
      ∧ Join ["/", "a"] = "/a" ∧ Join ["a/", "b"] = "a/b" ∧ Join ["", ""] = ""
      ∧ Join ["a/b", "../../../xyz"] = "../xyz" := by
  decide

theorem cleanLoop_nil (r : Bool) (fuel : Nat) (out : List Char) (dd : Nat) :
    cleanLoop r fuel [] out dd = out := by
  cases fuel <;> rfl

theorem cleanLoop_cons (r : Bool) (fuel : Nat) (c : Char) (rest out : List Char) (dd : Nat) :
    cleanLoop r (fuel + 1) (c :: rest) out dd
      = cleanLoop r fuel (cleanStep r c rest out dd).1 (cleanStep r c rest out dd).2.1
          (cleanStep r c rest out dd).2.2 := rfl

theorem length_dropWhile_le {α : Type} (p : α → Bool) (l : List α) :
    (l.dropWhile p).length ≤ l.length := by
  induction l with
  | nil => simp
  | cons a t ih =>
    simp only [List.dropWhile_cons]
    split
    · simp only [List.length_cons]; omega
    · simp

theorem cleanStep_length (r : Bool) (c : Char) (rest out : List Char) (dd : Nat) :
    (cleanStep r c rest out dd).1.length ≤ rest.length := by
  have ht : rest.tail.length ≤ rest.length := by simp
  have hd := length_dropWhile_le (fun d => !IsPathSeparator d) rest
  unfold cleanStep
  split_ifs <;> simp only [] <;> omega

theorem cleanLoop_fuel (r : Bool) (f1 : Nat) :
    ∀ (f2 : Nat) (path out : List Char) (dd : Nat), path.length ≤ f1 → path.length ≤ f2 →
      cleanLoop r f1 path out dd = cleanLoop r f2 path out dd := by
  induction f1 with
  | zero =>
    intro f2 path out dd h1 _
    have : path = [] := List.length_eq_zero.mp (Nat.le_zero.mp h1)
    subst this
    simp [cleanLoop_nil]
  | succ f1 ih =>
    intro f2 path out dd h1 h2
    cases path with
    | nil => simp [cleanLoop_nil]
    | cons c rest =>
      cases f2 with
      | zero => simp at h2
      | succ f2 =>
        simp only [List.length_cons, Nat.add_le_add_iff_right] at h1 h2
        have hs := cleanStep_length r c rest out dd
        rw [cleanLoop_cons, cleanLoop_cons]
        apply ih <;> omega

theorem atElemEnd_append (t rest : List Char) :
    atElemEnd (t ++ Separator :: rest) = atElemEnd t := by
  cases t with
  | nil => simp [atElemEnd, IsPathSeparator]
  | cons a t => simp [atElemEnd]

theorem takeWhile_append_sep (t rest : List Char) :
    (t ++ Separator :: rest).takeWhile (fun d => !IsPathSeparator d)
      = t.takeWhile (fun d => !IsPathSeparator d) := by
  induction t with
  | nil => simp [IsPathSeparator]
  | cons a t ih =>
    simp only [List.cons_append, List.takeWhile_cons]
    split
    · rw [ih]
    · rfl

theorem dropWhile_append_sep (t rest : List Char) :
    (t ++ Separator :: rest).dropWhile (fun d => !IsPathSeparator d)
      = t.dropWhile (fun d => !IsPathSeparator d) ++ Separator :: rest := by
  induction t with
  | nil => simp [IsPathSeparator]
  | cons a t ih =>
    simp only [List.cons_append, List.dropWhile_cons]
    split
    · rw [ih]
    · rfl

theorem head?_append_sep (t rest : List Char) :
    ((t ++ Separator :: rest).head? = some '.') ↔ (t.head? = some '.') := by
  cases t with
  | nil => simp [Separator]
  | cons a t => simp

theorem tail_append_sep (t rest : List Char) (h : t.head? = some '.') :
    (t ++ Separator :: rest).tail = t.tail ++ Separator :: rest := by
  cases t with
  | nil => simp at h
  | cons a t => simp

/-- One iteration does not look past a separator that follows the element it
reads. -/
theorem cleanStep_append_sep (r : Bool) (c : Char) (t rest out : List Char) (dd : Nat) :
    cleanStep r c (t ++ Separator :: rest) out dd
      = ((cleanStep r c t out dd).1 ++ Separator :: rest,
          (cleanStep r c t out dd).2.1, (cleanStep r c t out dd).2.2) := by
  unfold cleanStep
  by_cases hsep : IsPathSeparator c = true
  · rw [if_pos hsep, if_pos hsep]
  · rw [if_neg hsep, if_neg hsep]
    by_cases hdot : c = '.' ∧ atElemEnd t = true
    · have h1 : c = '.' ∧ atElemEnd (t ++ Separator :: rest) = true := by
        rw [atElemEnd_append]; exact hdot
      rw [if_pos hdot, if_pos h1]
    · have h1 : ¬ (c = '.' ∧ atElemEnd (t ++ Separator :: rest) = true) := by
        rw [atElemEnd_append]; exact hdot
      rw [if_neg hdot, if_neg h1]
      by_cases hdd : c = '.' ∧ t.head? = some '.' ∧ atElemEnd t.tail = true
      · have h2 : c = '.' ∧ (t ++ Separator :: rest).head? = some '.'
            ∧ atElemEnd (t ++ Separator :: rest).tail = true := by
          refine ⟨hdd.1, (head?_append_sep t rest).mpr hdd.2.1, ?_⟩
          rw [tail_append_sep t rest hdd.2.1, atElemEnd_append]
          exact hdd.2.2
        rw [if_pos hdd, if_pos h2, tail_append_sep t rest hdd.2.1]
        split_ifs <;> rfl
      · have h2 : ¬ (c = '.' ∧ (t ++ Separator :: rest).head? = some '.'
            ∧ atElemEnd (t ++ Separator :: rest).tail = true) := by
          rintro ⟨hc, hh, ht⟩
          have hh1 := (head?_append_sep t rest).mp hh
          rw [tail_append_sep t rest hh1, atElemEnd_append] at ht
          exact hdd ⟨hc, hh1, ht⟩
        rw [if_neg hdd, if_neg h2, takeWhile_append_sep, dropWhile_append_sep]

/-- Reading a prefix `h` that is followed by a separator leaves the loop in the
state it reaches on `h` alone. -/
theorem cleanLoop_append_sep (r : Bool) (n : Nat) :
    ∀ (h out : List Char) (dd : Nat), h.length ≤ n →
      ∃ dd1 : Nat, ∀ (rest : List Char) (f1 f2 f3 : Nat),
        (h ++ Separator :: rest).length ≤ f1 → h.length ≤ f2 → (Separator :: rest).length ≤ f3 →
        cleanLoop r f1 (h ++ Separator :: rest) out dd
          = cleanLoop r f3 (Separator :: rest) (cleanLoop r f2 h out dd) dd1 := by
  induction n with
  | zero =>
    intro h out dd hn
    have : h = [] := List.length_eq_zero.mp (Nat.le_zero.mp hn)
    subst this
    refine ⟨dd, ?_⟩
    intro rest f1 f2 f3 h1 _ h3
    rw [cleanLoop_nil]
    exact cleanLoop_fuel r f1 f3 _ out dd h1 h3
  | succ n ih =>
    intro h out dd hn
    cases h with
    | nil =>
      refine ⟨dd, ?_⟩
      intro rest f1 f2 f3 h1 _ h3
      rw [cleanLoop_nil]
      exact cleanLoop_fuel r f1 f3 _ out dd h1 h3
    | cons c t =>
      simp only [List.length_cons, Nat.add_le_add_iff_right] at hn
      have hs := cleanStep_length r c t out dd
      obtain ⟨dd1, hdd⟩ := ih (cleanStep r c t out dd).1 (cleanStep r c t out dd).2.1
        (cleanStep r c t out dd).2.2 (le_trans hs hn)
      refine ⟨dd1, ?_⟩
      intro rest f1 f2 f3 h1 h2 h3
      obtain ⟨g1, rfl⟩ : ∃ g, f1 = g + 1 := ⟨f1 - 1, by simp at h1; omega⟩
      obtain ⟨g2, rfl⟩ : ∃ g, f2 = g + 1 := ⟨f2 - 1, by simp at h2; omega⟩
      rw [List.cons_append, cleanLoop_cons, cleanLoop_cons, cleanStep_append_sep]
      apply hdd rest g1 g2 f3
      · simp only [List.length_append, List.length_cons] at h1 ⊢; omega
      · simp only [List.length_cons] at h2; omega
      · exact h3

theorem cleanLoop_sep_elem (r : Bool) (e out : List Char) (dd f : Nat) (he : PlainElem e)
    (hf : (Separator :: e).length ≤ f) :
    cleanLoop r f (Separator :: e) out dd
      = (if (r = true ∧ out.length ≠ 1) ∨ (r = false ∧ out.length ≠ 0) then out ++ [Separator]
          else out) ++ e := by
  obtain ⟨c, cs, rfl, hdot, hsep, hcs⟩ := he
  obtain ⟨g, rfl⟩ : ∃ g, f = g + 2 := ⟨f - 2, by simp at hf; omega⟩
  have htake : cs.takeWhile (fun d => !IsPathSeparator d) = cs := by
    rw [List.takeWhile_eq_self_iff]
    intro x hx; simp [hcs x hx]
  have hdrop : cs.dropWhile (fun d => !IsPathSeparator d) = [] := by
    rw [List.dropWhile_eq_nil_iff]
    intro x hx; simp [hcs x hx]
  have h1 : cleanStep r Separator (c :: cs) out dd = (c :: cs, out, dd) := by
    simp [cleanStep, IsPathSeparator]
  have h2 : cleanStep r c cs out dd
      = ([], (if (r = true ∧ out.length ≠ 1) ∨ (r = false ∧ out.length ≠ 0) then
          out ++ [Separator] else out) ++ c :: cs, dd) := by
    unfold cleanStep
    rw [if_neg (by simp [hsep]), if_neg (fun h => hdot h.1), if_neg (fun h => hdot h.1),
      htake, hdrop]
  rw [cleanLoop_cons, h1, cleanLoop_cons, h2, cleanLoop_nil]

theorem Clean_data_cons (c : Char) (rest : List Char) :
    (Clean (String.mk (c :: rest))).data
      = (if (if IsPathSeparator c then cleanLoop true rest.length rest [Separator] 1
              else cleanLoop false (c :: rest).length (c :: rest) [] 0).length = 0 then ['.']
          else (if IsPathSeparator c then cleanLoop true rest.length rest [Separator] 1
              else cleanLoop false (c :: rest).length (c :: rest) [] 0)) := rfl

/-- Cleaning `h/e` for a non-empty `h` and a plain element `e`: the cleaned `h`
(nothing when that is `.`), a separator unless the cleaned `h` is the root, and
`e`. -/
theorem Clean_append_elem (h e : List Char) (hne : h ≠ []) (he : PlainElem e) :
    ∃ o : List Char,
      (Clean (String.mk h)).data = (if o.length = 0 then ['.'] else o)
      ∧ (Clean (String.mk (h ++ Separator :: e))).data
          = (if (h.head? = some Separator ∧ o.length ≠ 1) ∨ (h.head? ≠ some Separator ∧ o.length ≠ 0)
              then o ++ [Separator] else o) ++ e := by
  obtain ⟨c, cs, rfl, hdot, hsep, hcs⟩ := he
  have hE : PlainElem (c :: cs) := ⟨c, cs, rfl, hdot, hsep, hcs⟩
  cases h with
  | nil => exact absurd rfl hne
  | cons a t =>
    rw [List.cons_append, Clean_data_cons, Clean_data_cons]
    by_cases ha : IsPathSeparator a = true
    · have ha1 : a = Separator := by simpa [IsPathSeparator] using ha
      obtain ⟨dd1, hsplit⟩ := cleanLoop_append_sep true t.length t [Separator] 1 (le_refl _)
      refine ⟨cleanLoop true t.length t [Separator] 1, ?_, ?_⟩
      · rw [if_pos ha]
      · rw [if_pos ha, hsplit (c :: cs) _ t.length (Separator :: c :: cs).length (le_refl _)
          (le_refl _) (le_refl _), cleanLoop_sep_elem true _ _ _ _ hE (le_refl _)]
        have hne0 : ((if (true = true ∧ (cleanLoop true t.length t [Separator] 1).length ≠ 1) ∨
              (true = false ∧ (cleanLoop true t.length t [Separator] 1).length ≠ 0) then
            cleanLoop true t.length t [Separator] 1 ++ [Separator]
            else cleanLoop true t.length t [Separator] 1) ++ c :: cs).length ≠ 0 := by simp
        rw [if_neg hne0]
        simp [ha1]
    · have ha1 : a ≠ Separator := by simpa [IsPathSeparator] using ha
      obtain ⟨dd1, hsplit⟩ := cleanLoop_append_sep false (a :: t).length (a :: t) [] 0 (le_refl _)
      refine ⟨cleanLoop false (a :: t).length (a :: t) [] 0, ?_, ?_⟩
      · rw [if_neg ha]
      · rw [if_neg ha, ← List.cons_append, hsplit (c :: cs) _ (a :: t).length
          (Separator :: c :: cs).length (le_refl _)
          (le_refl _) (le_refl _), cleanLoop_sep_elem false _ _ _ _ hE (le_refl _)]
        have hne0 : ((if (false = true ∧ (cleanLoop false (a :: t).length (a :: t) [] 0).length ≠ 1) ∨
              (false = false ∧ (cleanLoop false (a :: t).length (a :: t) [] 0).length ≠ 0) then
            cleanLoop false (a :: t).length (a :: t) [] 0 ++ [Separator]
            else cleanLoop false (a :: t).length (a :: t) [] 0) ++ c :: cs).length ≠ 0 := by simp
        rw [if_neg hne0]
        simp [ha1]

theorem Clean_empty : Clean "" = "." := rfl

/-- A clean path other than the root and `.` stays as it is when a plain
element is joined to it. -/
theorem Clean_append_of_clean (h e : String) (hc : Clean h = h) (h1 : h ≠ "/") (h2 : h ≠ ".")
    (he : PlainElem e.data) :
    Clean (h ++ "/" ++ e) = h ++ "/" ++ e := by
  have hne : h.data ≠ [] := by
    intro h0
    have : h = "" := String.ext h0
    rw [this, Clean_empty] at hc
    exact absurd hc (by decide)
  obtain ⟨o, ho, hoe⟩ := Clean_append_elem h.data e.data hne he
  have hmk : String.mk h.data = h := rfl
  rw [hmk, hc] at ho
  have ho0 : o.length ≠ 0 := by
    intro h0
    rw [if_pos h0] at ho
    exact h2 (String.ext ho)
  rw [if_neg ho0] at ho
  subst ho
  have hcond : (h.data.head? = some Separator ∧ h.data.length ≠ 1)
      ∨ (h.data.head? ≠ some Separator ∧ h.data.length ≠ 0) := by
    by_cases hh : h.data.head? = some Separator
    · left
      refine ⟨hh, ?_⟩
      intro hl
      apply h1
      apply String.ext
      match hd : h.data, hh, hl with
      | [a], hh, _ =>
        simp at hh
        simp [hh, Separator]
    · right; exact ⟨hh, ho0⟩
  rw [if_pos hcond] at hoe
  apply String.ext
  have e1 : (h ++ "/" ++ e).data = h.data ++ Separator :: e.data := by
    simp [String.data_append, Separator]
  have e2 : h ++ "/" ++ e = String.mk (h.data ++ Separator :: e.data) := String.ext e1
  rw [e1, e2, hoe]
  simp

theorem plainElem_AppData : PlainElem "AppData".data :=
  ⟨'A', "ppData".data, rfl, by decide, by decide, by decide⟩

theorem plainElem_Local : PlainElem "Local".data :=
  ⟨'L', "ocal".data, rfl, by decide, by decide, by decide⟩

theorem plainElem_Playnite : PlainElem "Playnite".data :=
  ⟨'P', "laynite".data, rfl, by decide, by decide, by decide⟩

theorem plainElem_exe : PlainElem "Playnite.fullscreenapp.exe".data :=
  ⟨'P', "laynite.fullscreenapp.exe".data, rfl, by decide, by decide, by decide⟩

theorem plainElem_splash : PlainElem "splash.mp4".data :=
  ⟨'s', "plash.mp4".data, rfl, by decide, by decide, by decide⟩

theorem append_elem_ne (h e : String) (he : PlainElem e.data) :
    h ++ "/" ++ e ≠ "/" ∧ h ++ "/" ++ e ≠ "." := by
  obtain ⟨c, cs, hcs, -⟩ := he
  constructor <;> intro h0
  all_goals
    have := congrArg (fun s => s.data.length) h0
    simp [String.data_append, hcs] at this
    omega

/-- The join of a home directory in clean form, other than the root and `.`,
with the four fixed elements is the home directory followed by them. -/
theorem Join_home_of_clean (h : String) (hc : Clean h = h) (h1 : h ≠ "/") (h2 : h ≠ ".") :
    Join [h, "AppData", "Local", "Playnite", "Playnite.fullscreenapp.exe"]
      = h ++ "/AppData/Local/Playnite/Playnite.fullscreenapp.exe" := by
  have hne : h ≠ "" := by
    intro h0; rw [h0, Clean_empty] at hc; exact absurd hc (by decide)
  have s1 := Clean_append_of_clean h "AppData" hc h1 h2 plainElem_AppData
  have n1 := append_elem_ne h "AppData" plainElem_AppData
  have s2 := Clean_append_of_clean _ "Local" s1 n1.1 n1.2 plainElem_Local
  have n2 := append_elem_ne (h ++ "/" ++ "AppData") "Local" plainElem_Local
  have s3 := Clean_append_of_clean _ "Playnite" s2 n2.1 n2.2 plainElem_Playnite
  have n3 := append_elem_ne (h ++ "/" ++ "AppData" ++ "/" ++ "Local") "Playnite" plainElem_Playnite
  have s4 := Clean_append_of_clean _ "Playnite.fullscreenapp.exe" s3 n3.1 n3.2 plainElem_exe
  have hj : Join [h, "AppData", "Local", "Playnite", "Playnite.fullscreenapp.exe"]
      = Clean (h ++ "/" ++ "AppData" ++ "/" ++ "Local" ++ "/" ++ "Playnite" ++ "/"
          ++ "Playnite.fullscreenapp.exe") := by
    simp [Join, dropEmpty, hne, strings.Join, String.intercalate, String.intercalate.go,
      Separator, String.singleton]
    rfl
  rw [hj, s4]
  apply String.ext
  simp [String.data_append]

/-- The join of any directory name with `splash.mp4` ends in `splash.mp4`. -/
theorem Join_splash_suffix (d : String) :
    ∃ x : List Char, (Join [d, "splash.mp4"]).data = x ++ "splash.mp4".data := by
  by_cases hd : d = ""
  · subst hd
    exact ⟨[], by decide⟩
  · have hne : d.data ≠ [] := fun h0 => hd (String.ext h0)
    obtain ⟨o, -, hoe⟩ := Clean_append_elem d.data "splash.mp4".data hne plainElem_splash
    have hj : Join [d, "splash.mp4"]
        = Clean (String.mk (d.data ++ Separator :: "splash.mp4".data)) := by
      have e1 : String.mk (d.data ++ Separator :: "splash.mp4".data) = d ++ "/" ++ "splash.mp4" := by
        apply String.ext
        simp [String.data_append, Separator]
      rw [e1]
      simp [Join, dropEmpty, hd, strings.Join, String.intercalate, String.intercalate.go,
        Separator, String.singleton]
      rfl
    rw [hj, hoe]
    exact ⟨_, rfl⟩

/-- The extracted video never lands on the log file. -/
theorem Join_splash_ne_log (d : String) : Join [d, "splash.mp4"] ≠ "logFile.log" := by
  obtain ⟨x, hx⟩ := Join_splash_suffix d
  intro h0
  rw [h0] at hx
  have h1 := congrArg List.getLast? hx
  simp at h1

end filepath

/-! ## Evaluation of the program -/

theorem M.bind_apply {α β : Type} (m : M α) (f : α → M β) (w : World) :
    (m >>= f) w = match m w with
      | .exit code w1 => .exit code w1
      | .ret a w1 => f a w1 := rfl

theorem M.pure_apply {α : Type} (a : α) (w : World) : (pure a : M α) w = .ret a w := rfl

theorem logFlag_append :
    os.hasFlag (os.O_APPEND ||| os.O_RDWR ||| os.O_CREATE) os.O_APPEND = true := by decide

theorem logFlag_create :
    os.hasFlag (os.O_APPEND ||| os.O_RDWR ||| os.O_CREATE) os.O_CREATE = true := by decide

theorem logFlag_trunc :
    os.hasFlag (os.O_APPEND ||| os.O_RDWR ||| os.O_CREATE) os.O_TRUNC = false := by decide

theorem writeAt_nil (b : Bytes) : writeAt [] 0 b = b := by
  simp [writeAt]

theorem writeAt_end (old b : Bytes) : writeAt old old.length b = old ++ b := by
  simp [writeAt]

/-- C1: for every `videoPath`, `prepareVLCCommand videoPath` is the command
`exec.Command "vlc"` with exactly the eight arguments `--fullscreen`,
`--video-on-top`, `--play-and-exit`, `--intf`, `dummy`, `--dummy-quiet`,
`--no-osd` and, last and unmodified, `videoPath`: its argument vector is the
program name `vlc` followed by these eight. -/
theorem prepareVLCCommand_spec (videoPath : String) :
    prepareVLCCommand videoPath
        = exec.Command "vlc" ["--fullscreen", "--video-on-top", "--play-and-exit", "--intf",
            "dummy", "--dummy-quiet", "--no-osd", videoPath]
      ∧ (prepareVLCCommand videoPath).Args.head? = some "vlc"
      ∧ (prepareVLCCommand videoPath).Args.tail
          = ["--fullscreen", "--video-on-top", "--play-and-exit", "--intf", "dummy",
              "--dummy-quiet", "--no-osd", videoPath]
      ∧ (prepareVLCCommand videoPath).Args.tail.length = 8
      ∧ (prepareVLCCommand videoPath).Args.getLast? = some videoPath := by
  simp [prepareVLCCommand, exec.Command]

/-- C8: `initLogFile` on every file name and world.  When the open fails with
`e`, it returns no handle and `e` itself, the only call traced is the failed
open, and the logger output, the files and standard error are as before.  When
the open succeeds, it returns the handle and no error, the logger output is the
opened file, exactly one record, `Log file initialized`, is logged, and the
file holds its previous contents (none if it was absent) followed by that
line; no other file changes. -/
theorem initLogFile_spec (env : Env) (fileName : String) (w : World) :
    match env.openFile fileName with
    | some e =>
      (initLogFile env fileName w).value? = some (none, some e)
        ∧ (initLogFile env fileName w).world.logOutput = w.logOutput
        ∧ (initLogFile env fileName w).world.files = w.files
        ∧ (initLogFile env fileName w).world.stderr = w.stderr
        ∧ (initLogFile env fileName w).world.trace
            = w.trace ++ [.openFile fileName (os.O_APPEND ||| os.O_RDWR ||| os.O_CREATE) false]
    | none =>
      ∃ f g : os.File, f.name = fileName ∧ g.name = fileName
        ∧ (initLogFile env fileName w).value? = some (some f, none)
        ∧ (initLogFile env fileName w).world.logOutput = .file (some g)
        ∧ (initLogFile env fileName w).world.trace
            = w.trace ++ [.openFile fileName (os.O_APPEND ||| os.O_RDWR ||| os.O_CREATE) true,
                .setOutput (.file (some f)), .logOutput "Log file initialized\n"]
        ∧ (initLogFile env fileName w).world.files fileName
            = some ((w.files fileName).getD []
                ++ stringBytes (env.logHeader (w.trace.length + 2) ++ "Log file initialized\n"))
        ∧ (∀ p, p ≠ fileName → (initLogFile env fileName w).world.files p = w.files p)
        ∧ (initLogFile env fileName w).world.stderr = w.stderr := by
  cases h : env.openFile fileName with
  | some e =>
    simp [initLogFile, M.bind_apply, M.pure_apply, os.OpenFile, h, Outcome.value?, Outcome.world]
  | none =>
    cases hf : w.files fileName <;>
    · refine ⟨⟨fileName, os.O_APPEND ||| os.O_RDWR ||| os.O_CREATE, 0⟩, ⟨fileName, os.O_APPEND ||| os.O_RDWR ||| os.O_CREATE,
        ((w.files fileName).getD []).length + (stringBytes
          (env.logHeader (w.trace.length + 2) ++ "Log file initialized\n")).length⟩, rfl, rfl, ?_⟩
      simp [initLogFile, M.bind_apply, M.pure_apply, os.OpenFile, h, hf,
        Outcome.value?,
        Outcome.world, log.SetOutput, log.Println, log.Output, Writer.Write, logFlag_append,
        logFlag_create, logFlag_trunc, writeAt_end, writeAt_nil, log.formatLine]
      intro p hp
      simp [hp]

/-- C3: whenever `extractSplashVideo` returns a path `p` and no error, the
environment created a temporary directory `d` in that call, `p` is
`filepath.Join [d, "splash.mp4"]` (a path that ends in `splash.mp4`), `d` is a
directory, and the file at `p` holds exactly `videoContent`; the calls made
are the directory creation, the successful write and one log record.  The
logger is assumed not to have the file at `p` as its output: that file lies
in the directory created by this very call. -/
theorem extractSplashVideo_ok (env : Env) (videoContent : Bytes) (w : World) (p : String)
    (h : (extractSplashVideo env videoContent w).value? = some (p, none))
    (hsink : ∀ f : os.File, w.logOutput = .file (some f) → f.name ≠ p) :
    ∃ d : String, env.mkdirTemp "" "splash" = .ok d
      ∧ p = filepath.Join [d, "splash.mp4"]
      ∧ (∃ x : List Char, p.data = x ++ "splash.mp4".data)
      ∧ (extractSplashVideo env videoContent w).world.dirs d = true
      ∧ (extractSplashVideo env videoContent w).world.files p = some videoContent
      ∧ (extractSplashVideo env videoContent w).world.trace
          = w.trace ++ [.mkdirTemp "" "splash" d true, .writeFile p videoContent true,
              .logOutput ("Temporary splash video created at: " ++ p)] := by
  cases hd : env.mkdirTemp "" "splash" with
  | error e =>
    simp [extractSplashVideo, M.bind_apply, M.pure_apply, os.MkdirTemp, hd, Outcome.value?] at h
  | ok d =>
    cases hw : env.writeFile (filepath.Join [d, "splash.mp4"]) with
    | some fl =>
      simp [extractSplashVideo, M.bind_apply, M.pure_apply, os.MkdirTemp, os.WriteFile, hd, hw,
        Outcome.value?] at h
    | none =>
      have hp : filepath.Join [d, "splash.mp4"] = p := by
        simpa [extractSplashVideo, M.bind_apply, M.pure_apply, os.MkdirTemp, os.WriteFile, hd, hw,
          Outcome.value?, log.Printf, log.Output] using h
      subst hp
      refine ⟨d, rfl, rfl, filepath.Join_splash_suffix d, ?_⟩
      cases hl : w.logOutput with
      | stderr =>
        simp [extractSplashVideo, M.bind_apply, M.pure_apply, os.MkdirTemp, os.WriteFile, hd, hw,
          Outcome.world, log.Printf, log.Output, Writer.Write, hl]
      | file o =>
        cases o with
        | none =>
          simp [extractSplashVideo, M.bind_apply, M.pure_apply, os.MkdirTemp, os.WriteFile, hd,
            hw, Outcome.world, log.Printf, log.Output, Writer.Write, hl]
        | some f =>
          have hne := hsink f hl
          by_cases hfp : f.name = filepath.Join [d, "splash.mp4"]
          · exact absurd hfp hne
          · cases hf : w.files f.name <;>
            simp [extractSplashVideo, M.bind_apply, M.pure_apply, os.MkdirTemp, os.WriteFile, hd,
              hw, Outcome.world, log.Printf, log.Output, Writer.Write, hl, hf, hfp, Ne.symm hfp]

/-- C10: whenever `extractSplashVideo` returns a non-nil error, the returned
path is the empty string and no record is logged by the call.  Either the
directory creation failed with `cause`, and the error wraps `cause` with the
text `failed to create temporary directory: ` in front of its message, or the
directory `d` was created, the write failed with `cause`, the error wraps
`cause` with the text `failed to write splash video to temporary file: `, and
`d` is still a directory afterwards. -/
theorem extractSplashVideo_fail (env : Env) (videoContent : Bytes) (w : World) (p : String)
    (err : GoError) (h : (extractSplashVideo env videoContent w).value? = some (p, some err)) :
    p = ""
      ∧ (∀ s, Event.logOutput s ∈ (extractSplashVideo env videoContent w).world.trace →
          Event.logOutput s ∈ w.trace)
      ∧ ((∃ cause : GoError, env.mkdirTemp "" "splash" = .error cause
            ∧ err = fmt.Errorf "failed to create temporary directory: " cause
            ∧ err.Error = "failed to create temporary directory: " ++ cause.Error
            ∧ err.Unwrap = some cause
            ∧ (extractSplashVideo env videoContent w).world.trace
                = w.trace ++ [.mkdirTemp "" "splash" "" false])
        ∨ (∃ (d : String) (fl : WriteFailure), env.mkdirTemp "" "splash" = .ok d
            ∧ env.writeFile (filepath.Join [d, "splash.mp4"]) = some fl
            ∧ err = fmt.Errorf "failed to write splash video to temporary file: " fl.err
            ∧ err.Error = "failed to write splash video to temporary file: " ++ fl.err.Error
            ∧ err.Unwrap = some fl.err
            ∧ (extractSplashVideo env videoContent w).world.dirs d = true
            ∧ (extractSplashVideo env videoContent w).world.trace
                = w.trace ++ [.mkdirTemp "" "splash" d true,
                    .writeFile (filepath.Join [d, "splash.mp4"]) videoContent false])) := by
  cases hd : env.mkdirTemp "" "splash" with
  | error e =>
    simp [extractSplashVideo, M.bind_apply, M.pure_apply, os.MkdirTemp, hd, Outcome.value?] at h
    obtain ⟨rfl, rfl⟩ := h
    simp [extractSplashVideo, M.bind_apply, M.pure_apply, os.MkdirTemp, hd, Outcome.world,
      fmt.Errorf, GoError.Error, GoError.Unwrap]
  | ok d =>
    cases hw : env.writeFile (filepath.Join [d, "splash.mp4"]) with
    | some fl =>
      simp [extractSplashVideo, M.bind_apply, M.pure_apply, os.MkdirTemp, os.WriteFile, hd, hw,
        Outcome.value?] at h
      obtain ⟨rfl, rfl⟩ := h
      simp [extractSplashVideo, M.bind_apply, M.pure_apply, os.MkdirTemp, os.WriteFile, hd, hw,
        Outcome.world, fmt.Errorf, GoError.Error, GoError.Unwrap]
    | none =>
      simp [extractSplashVideo, M.bind_apply, M.pure_apply, os.MkdirTemp, os.WriteFile, hd, hw,
        Outcome.value?, log.Printf, log.Output] at h

theorem splashLine_last (d : String) :
    ("Temporary splash video created at: " ++ filepath.Join [d, "splash.mp4"]).data.getLast?
      ≠ some '\n' := by
  obtain ⟨x, hx⟩ := filepath.Join_splash_suffix d
  have e1 : ("Temporary splash video created at: " ++ filepath.Join [d, "splash.mp4"]).data
      = ("Temporary splash video created at: ".data ++ x ++ "splash.mp".data) ++ ['4'] := by
    simp [String.data_append, hx]
  rw [e1, List.getLast?_concat]
  decide

theorem formatLine_splash (header d : String) :
    log.formatLine header ("Temporary splash video created at: " ++ filepath.Join [d, "splash.mp4"])
      = header ++ "Temporary splash video created at: " ++ filepath.Join [d, "splash.mp4"] ++ "\n" := by
  unfold log.formatLine
  rw [if_neg (splashLine_last d)]
  simp [String.append_assoc]

set_option maxHeartbeats 1000000 in
/-- C6: in every environment in which the log file opens, `vlc` is found, the
current user `u` is resolved, the temporary directory `d` is created, the write
succeeds and both process starts succeed, the run returns from `main` (exit
code 0); with `p = filepath.Join [d, "splash.mp4"]`, the log file ends up as
its previous contents followed by the four lines `Log file initialized`,
`Temporary splash video created at: p`, `Starting VLC to play splash
video...` and `Launching Playnite...`, each behind the logger header; the file
at `p` holds the embedded bytes; and exactly two process starts are attempted:
first the command with the argument vector `vlc`, `--fullscreen`,
`--video-on-top`, `--play-and-exit`, `--intf`, `dummy`, `--dummy-quiet`,
`--no-osd`, `p`, then the target application at the path joined from the home
directory with the single argument `--hidesplashscreen`. -/
theorem main_success (env : Env) (videoContent : Bytes) (files : String → Option Bytes)
    (dirs : String → Bool) (lp : String) (u : user.User) (d : String)
    (h1 : env.openFile "logFile.log" = none)
    (h2 : env.lookPath "vlc" = .ok lp)
    (h3 : env.userCurrent = .ok u)
    (h4 : env.mkdirTemp "" "splash" = .ok d)
    (h5 : env.writeFile (filepath.Join [d, "splash.mp4"]) = none)
    (h6 : env.start (exec.Command "vlc" ["--fullscreen", "--video-on-top", "--play-and-exit",
      "--intf", "dummy", "--dummy-quiet", "--no-osd", filepath.Join [d, "splash.mp4"]]) = none)
    (h7 : env.start (exec.Command (filepath.Join [u.HomeDir, "AppData", "Local", "Playnite",
      "Playnite.fullscreenapp.exe"]) ["--hidesplashscreen"]) = none) :
    (run env videoContent files dirs).exitCode = 0
      ∧ (run env videoContent files dirs).value? = some ()
      ∧ (run env videoContent files dirs).world.trace
          = [.openFile "logFile.log" (os.O_APPEND ||| os.O_RDWR ||| os.O_CREATE) true,
              .setOutput
                (.file (some ⟨"logFile.log", os.O_APPEND ||| os.O_RDWR ||| os.O_CREATE, 0⟩)),
              .logOutput "Log file initialized\n",
              .lookPath "vlc" true,
              .userCurrent true,
              .mkdirTemp "" "splash" d true,
              .writeFile (filepath.Join [d, "splash.mp4"]) videoContent true,
              .logOutput
                ("Temporary splash video created at: " ++ filepath.Join [d, "splash.mp4"]),
              .logOutput "Starting VLC to play splash video...\n",
              .start (exec.Command "vlc" ["--fullscreen", "--video-on-top", "--play-and-exit",
                "--intf", "dummy", "--dummy-quiet", "--no-osd",
                filepath.Join [d, "splash.mp4"]]) true,
              .logOutput "Launching Playnite...\n",
              .start (exec.Command (filepath.Join [u.HomeDir, "AppData", "Local", "Playnite",
                "Playnite.fullscreenapp.exe"]) ["--hidesplashscreen"]) true,
              .close "logFile.log"]
      ∧ (run env videoContent files dirs).world.files "logFile.log"
          = some ((files "logFile.log").getD []
              ++ stringBytes (env.logHeader 2 ++ "Log file initialized\n")
              ++ stringBytes (env.logHeader 7 ++ "Temporary splash video created at: "
                  ++ filepath.Join [d, "splash.mp4"] ++ "\n")
              ++ stringBytes (env.logHeader 8 ++ "Starting VLC to play splash video...\n")
              ++ stringBytes (env.logHeader 10 ++ "Launching Playnite...\n"))
      ∧ (run env videoContent files dirs).world.files (filepath.Join [d, "splash.mp4"])
          = some videoContent
      ∧ startedCmds (run env videoContent files dirs).world.trace
          = [exec.Command "vlc" ["--fullscreen", "--video-on-top", "--play-and-exit",
                "--intf", "dummy", "--dummy-quiet", "--no-osd",
                filepath.Join [d, "splash.mp4"]],
              exec.Command (filepath.Join [u.HomeDir, "AppData", "Local", "Playnite",
                "Playnite.fullscreenapp.exe"]) ["--hidesplashscreen"]]
      ∧ (startedCmds (run env videoContent files dirs).world.trace).map exec.Cmd.Args
          = [["vlc", "--fullscreen", "--video-on-top", "--play-and-exit", "--intf", "dummy",
                "--dummy-quiet", "--no-osd", filepath.Join [d, "splash.mp4"]],
              [filepath.Join [u.HomeDir, "AppData", "Local", "Playnite",
                "Playnite.fullscreenapp.exe"], "--hidesplashscreen"]] := by
  have hne := filepath.Join_splash_ne_log d
  cases hf : files "logFile.log" <;>
  simp [-List.length_append, run, main, World.init, initLogFile, extractSplashVideo,
    handleError, deref, prepareVLCCommand,
    M.bind_apply, M.pure_apply, os.OpenFile, os.MkdirTemp, os.WriteFile, os.File.Close, emit,
    log.SetOutput, log.Println, log.Printf, log.Output, Writer.Write, exec.LookPath,
    exec.Cmd.Start, user.Current, logFlag_append, logFlag_create, logFlag_trunc,
    h1, h2, h3, h4, h5, h6, h7, hf, hne, Ne.symm hne, Outcome.world, Outcome.exitCode,
    Outcome.value?, writeAt_end, writeAt_nil, formatLine_splash, startedCmds, Event.startCmd?]
  all_goals simp [log.formatLine, exec.Command]

theorem OpenFile_create (env : Env) (name : String) (flag perm : Nat) (w : World)
    (h : env.openFile name = none) (hc : os.hasFlag flag os.O_CREATE = true) :
    os.OpenFile env name flag perm w
      = .ret (some { name := name, flag := flag, offset := 0 }, none)
          { w with
            files := fun p =>
              if p = name then
                some (if os.hasFlag flag os.O_TRUNC then [] else (w.files name).getD [])
              else w.files p
            trace := w.trace ++ [.openFile name flag true] } := by
  cases hf : w.files name <;> simp [os.OpenFile, h, hc, hf]

set_option maxHeartbeats 4000000 in
/-- Every run of the program takes one of eight courses: each of the seven
fallible steps may be the first to fail, or all succeed. -/
theorem run_cases (env : Env) (videoContent : Bytes) (files : String → Option Bytes)
    (dirs : String → Bool) :
    (∃ e, env.openFile "logFile.log" = some e
      ∧ (run env videoContent files dirs).exitCode = 1
      ∧ (run env videoContent files dirs).value? = none
      ∧ (run env videoContent files dirs).world.dirs = dirs
      ∧ (run env videoContent files dirs).world.files = files
      ∧ (run env videoContent files dirs).world.trace
          = [.openFile "logFile.log" (os.O_APPEND ||| os.O_RDWR ||| os.O_CREATE) false,
              .logOutput ("Error: " ++ (fmt.Errorf "failed to initialize log file: " e).Error),
              .exit 1])
    ∨ (∃ e, env.openFile "logFile.log" = none ∧ env.lookPath "vlc" = .error e
      ∧ (run env videoContent files dirs).exitCode = 1
      ∧ (run env videoContent files dirs).value? = none
      ∧ (run env videoContent files dirs).world.dirs = dirs
      ∧ (∀ p, p ≠ "logFile.log" → (run env videoContent files dirs).world.files p = files p)
      ∧ (run env videoContent files dirs).world.trace
          = [.openFile "logFile.log" (os.O_APPEND ||| os.O_RDWR ||| os.O_CREATE) true,
              .setOutput (.file (some ⟨"logFile.log", os.O_APPEND ||| os.O_RDWR ||| os.O_CREATE, 0⟩)),
              .logOutput "Log file initialized\n",
              .lookPath "vlc" false,
              .logOutput ("Error: " ++ (fmt.Errorf
                "VLC not found in PATH. Ensure VLC is installed and accessible: " e).Error),
              .exit 1])
    ∨ (∃ lp e, env.openFile "logFile.log" = none ∧ env.lookPath "vlc" = .ok lp
      ∧ env.userCurrent = .error e
      ∧ (run env videoContent files dirs).exitCode = 1
      ∧ (run env videoContent files dirs).value? = none
      ∧ (run env videoContent files dirs).world.trace
          = [.openFile "logFile.log" (os.O_APPEND ||| os.O_RDWR ||| os.O_CREATE) true,
              .setOutput (.file (some ⟨"logFile.log", os.O_APPEND ||| os.O_RDWR ||| os.O_CREATE, 0⟩)),
              .logOutput "Log file initialized\n",
              .lookPath "vlc" true,
              .userCurrent false,
              .logOutput ("Error: " ++ (fmt.Errorf "failed to retrieve current user: " e).Error),
              .exit 1])
    ∨ (∃ lp u e, env.openFile "logFile.log" = none ∧ env.lookPath "vlc" = .ok lp
      ∧ env.userCurrent = .ok u ∧ env.mkdirTemp "" "splash" = .error e
      ∧ (run env videoContent files dirs).exitCode = 1
      ∧ (run env videoContent files dirs).value? = none
      ∧ (run env videoContent files dirs).world.trace
          = [.openFile "logFile.log" (os.O_APPEND ||| os.O_RDWR ||| os.O_CREATE) true,
              .setOutput (.file (some ⟨"logFile.log", os.O_APPEND ||| os.O_RDWR ||| os.O_CREATE, 0⟩)),
              .logOutput "Log file initialized\n",
              .lookPath "vlc" true,
              .userCurrent true,
              .mkdirTemp "" "splash" "" false,
              .logOutput ("Error: " ++ (fmt.Errorf "failed to create temporary splash video file: "
                (fmt.Errorf "failed to create temporary directory: " e)).Error),
              .exit 1])
    ∨ (∃ lp u d fl, env.openFile "logFile.log" = none ∧ env.lookPath "vlc" = .ok lp
      ∧ env.userCurrent = .ok u ∧ env.mkdirTemp "" "splash" = .ok d
      ∧ env.writeFile (filepath.Join [d, "splash.mp4"]) = some fl
      ∧ (run env videoContent files dirs).exitCode = 1
      ∧ (run env videoContent files dirs).value? = none
      ∧ (run env videoContent files dirs).world.trace
          = [.openFile "logFile.log" (os.O_APPEND ||| os.O_RDWR ||| os.O_CREATE) true,
              .setOutput (.file (some ⟨"logFile.log", os.O_APPEND ||| os.O_RDWR ||| os.O_CREATE, 0⟩)),
              .logOutput "Log file initialized\n",
              .lookPath "vlc" true,
              .userCurrent true,
              .mkdirTemp "" "splash" d true,
              .writeFile (filepath.Join [d, "splash.mp4"]) videoContent false,
              .logOutput ("Error: " ++ (fmt.Errorf "failed to create temporary splash video file: "
                (fmt.Errorf "failed to write splash video to temporary file: " fl.err)).Error),
              .exit 1])
    ∨ (∃ lp u d e, env.openFile "logFile.log" = none ∧ env.lookPath "vlc" = .ok lp
      ∧ env.userCurrent = .ok u ∧ env.mkdirTemp "" "splash" = .ok d
      ∧ env.writeFile (filepath.Join [d, "splash.mp4"]) = none
      ∧ env.start (prepareVLCCommand (filepath.Join [d, "splash.mp4"])) = some e
      ∧ (run env videoContent files dirs).exitCode = 1
      ∧ (run env videoContent files dirs).value? = none
      ∧ (run env videoContent files dirs).world.files (filepath.Join [d, "splash.mp4"])
          = some videoContent
      ∧ (run env videoContent files dirs).world.trace
          = [.openFile "logFile.log" (os.O_APPEND ||| os.O_RDWR ||| os.O_CREATE) true,
              .setOutput (.file (some ⟨"logFile.log", os.O_APPEND ||| os.O_RDWR ||| os.O_CREATE, 0⟩)),
              .logOutput "Log file initialized\n",
              .lookPath "vlc" true,
              .userCurrent true,
              .mkdirTemp "" "splash" d true,
              .writeFile (filepath.Join [d, "splash.mp4"]) videoContent true,
              .logOutput ("Temporary splash video created at: " ++ filepath.Join [d, "splash.mp4"]),
              .logOutput "Starting VLC to play splash video...\n",
              .start (prepareVLCCommand (filepath.Join [d, "splash.mp4"])) false,
              .logOutput ("Error: " ++ (fmt.Errorf "failed to start VLC: " e).Error),
              .exit 1])
    ∨ (∃ lp u d e, env.openFile "logFile.log" = none ∧ env.lookPath "vlc" = .ok lp
      ∧ env.userCurrent = .ok u ∧ env.mkdirTemp "" "splash" = .ok d
      ∧ env.writeFile (filepath.Join [d, "splash.mp4"]) = none
      ∧ env.start (prepareVLCCommand (filepath.Join [d, "splash.mp4"])) = none
      ∧ env.start (exec.Command (filepath.Join [u.HomeDir, "AppData", "Local", "Playnite",
          "Playnite.fullscreenapp.exe"]) ["--hidesplashscreen"]) = some e
      ∧ (run env videoContent files dirs).exitCode = 1
      ∧ (run env videoContent files dirs).value? = none
      ∧ (run env videoContent files dirs).world.files (filepath.Join [d, "splash.mp4"])
          = some videoContent
      ∧ (run env videoContent files dirs).world.trace
          = [.openFile "logFile.log" (os.O_APPEND ||| os.O_RDWR ||| os.O_CREATE) true,
              .setOutput (.file (some ⟨"logFile.log", os.O_APPEND ||| os.O_RDWR ||| os.O_CREATE, 0⟩)),
              .logOutput "Log file initialized\n",
              .lookPath "vlc" true,
              .userCurrent true,
              .mkdirTemp "" "splash" d true,
              .writeFile (filepath.Join [d, "splash.mp4"]) videoContent true,
              .logOutput ("Temporary splash video created at: " ++ filepath.Join [d, "splash.mp4"]),
              .logOutput "Starting VLC to play splash video...\n",
              .start (prepareVLCCommand (filepath.Join [d, "splash.mp4"])) true,
              .logOutput "Launching Playnite...\n",
              .start (exec.Command (filepath.Join [u.HomeDir, "AppData", "Local", "Playnite",
                "Playnite.fullscreenapp.exe"]) ["--hidesplashscreen"]) false,
              .logOutput ("Error: " ++ (fmt.Errorf "failed to start Playnite: " e).Error),
              .exit 1])
    ∨ (∃ lp u d, env.openFile "logFile.log" = none ∧ env.lookPath "vlc" = .ok lp
      ∧ env.userCurrent = .ok u ∧ env.mkdirTemp "" "splash" = .ok d
      ∧ env.writeFile (filepath.Join [d, "splash.mp4"]) = none
      ∧ env.start (prepareVLCCommand (filepath.Join [d, "splash.mp4"])) = none
      ∧ env.start (exec.Command (filepath.Join [u.HomeDir, "AppData", "Local", "Playnite",
          "Playnite.fullscreenapp.exe"]) ["--hidesplashscreen"]) = none
      ∧ (run env videoContent files dirs).exitCode = 0
      ∧ (run env videoContent files dirs).value? = some ()
      ∧ (run env videoContent files dirs).world.files (filepath.Join [d, "splash.mp4"])
          = some videoContent
      ∧ (run env videoContent files dirs).world.trace
          = [.openFile "logFile.log" (os.O_APPEND ||| os.O_RDWR ||| os.O_CREATE) true,
              .setOutput (.file (some ⟨"logFile.log", os.O_APPEND ||| os.O_RDWR ||| os.O_CREATE, 0⟩)),
              .logOutput "Log file initialized\n",
              .lookPath "vlc" true,
              .userCurrent true,
              .mkdirTemp "" "splash" d true,
              .writeFile (filepath.Join [d, "splash.mp4"]) videoContent true,
              .logOutput ("Temporary splash video created at: " ++ filepath.Join [d, "splash.mp4"]),
              .logOutput "Starting VLC to play splash video...\n",
              .start (prepareVLCCommand (filepath.Join [d, "splash.mp4"])) true,
              .logOutput "Launching Playnite...\n",
              .start (exec.Command (filepath.Join [u.HomeDir, "AppData", "Local", "Playnite",
                "Playnite.fullscreenapp.exe"]) ["--hidesplashscreen"]) true,
              .close "logFile.log"]) := by
  cases h1 : env.openFile "logFile.log" with
  | some e =>
    refine Or.inl ⟨e, rfl, ?_⟩
    simp [run, main, World.init, initLogFile, handleError, M.bind_apply, M.pure_apply,
      os.OpenFile, os.Exit, log.Fatalf, log.Output, Writer.Write, h1, Outcome.world,
      Outcome.exitCode, Outcome.value?]
  | none =>
    refine Or.inr ?_
    cases h2 : env.lookPath "vlc" with
    | error e =>
      refine Or.inl ⟨e, rfl, rfl, ?_⟩
      simp [-List.length_append, run, main, World.init, initLogFile, handleError,
        M.bind_apply, M.pure_apply, OpenFile_create, os.Exit, log.Fatalf, log.SetOutput,
        log.Println, log.Output, Writer.Write, exec.LookPath, logFlag_append, logFlag_create,
        logFlag_trunc, h1, h2, Outcome.world, Outcome.exitCode, Outcome.value?]
      intro p hp
      simp [hp]
    | ok lp =>
      refine Or.inr ?_
      cases h3 : env.userCurrent with
      | error e =>
        refine Or.inl ⟨lp, e, rfl, rfl, rfl, ?_⟩
        simp [-List.length_append, run, main, World.init, initLogFile, handleError,
          M.bind_apply, M.pure_apply, OpenFile_create, os.Exit, log.Fatalf, log.SetOutput,
          log.Println, log.Output, Writer.Write, exec.LookPath, user.Current, logFlag_append,
          logFlag_create, logFlag_trunc, h1, h2, h3, Outcome.world, Outcome.exitCode,
          Outcome.value?]
      | ok u =>
        refine Or.inr ?_
        cases h4 : env.mkdirTemp "" "splash" with
        | error e =>
          refine Or.inl ⟨lp, u, e, rfl, rfl, rfl, rfl, ?_⟩
          simp [-List.length_append, run, main, World.init, initLogFile, extractSplashVideo,
            handleError, M.bind_apply, M.pure_apply, OpenFile_create, os.MkdirTemp, os.Exit,
            log.Fatalf, log.SetOutput, log.Println, log.Output, Writer.Write, exec.LookPath,
            user.Current, logFlag_append, logFlag_create, logFlag_trunc, h1, h2, h3, h4,
            Outcome.world, Outcome.exitCode, Outcome.value?]
        | ok d =>
          refine Or.inr ?_
          have hne := filepath.Join_splash_ne_log d
          cases h5 : env.writeFile (filepath.Join [d, "splash.mp4"]) with
          | some fl =>
            refine Or.inl ⟨lp, u, d, fl, rfl, rfl, rfl, rfl, h5, ?_⟩
            simp [-List.length_append, run, main, World.init, initLogFile, extractSplashVideo,
              handleError, M.bind_apply, M.pure_apply, OpenFile_create, os.MkdirTemp,
              os.WriteFile, os.Exit, log.Fatalf, log.SetOutput, log.Println, log.Output,
              Writer.Write, exec.LookPath, user.Current, logFlag_append, logFlag_create,
              logFlag_trunc, h1, h2, h3, h4, h5, hne, Ne.symm hne, Outcome.world,
              Outcome.exitCode, Outcome.value?]
          | none =>
            refine Or.inr ?_
            cases h6 : env.start (prepareVLCCommand (filepath.Join [d, "splash.mp4"])) with
            | some e =>
              refine Or.inl ⟨lp, u, d, e, rfl, rfl, rfl, rfl, h5, h6, ?_⟩
              simp [-List.length_append, run, main, World.init, initLogFile,
                extractSplashVideo, handleError, deref, M.bind_apply, M.pure_apply,
                OpenFile_create, os.MkdirTemp, os.WriteFile, os.Exit, log.Fatalf, log.SetOutput,
                log.Println, log.Printf, log.Output, Writer.Write, exec.LookPath, exec.Cmd.Start,
                user.Current, logFlag_append, logFlag_create, logFlag_trunc, h1, h2, h3, h4, h5,
                h6, hne, Ne.symm hne, Outcome.world, Outcome.exitCode, Outcome.value?,
                writeAt_end, writeAt_nil]
            | none =>
              refine Or.inr ?_
              cases h7 : env.start (exec.Command (filepath.Join [u.HomeDir, "AppData", "Local",
                "Playnite", "Playnite.fullscreenapp.exe"]) ["--hidesplashscreen"]) with
              | some e =>
                refine Or.inl ⟨lp, u, d, e, rfl, rfl, rfl, rfl, h5, h6, h7, ?_⟩
                simp [-List.length_append, run, main, World.init, initLogFile,
                  extractSplashVideo, handleError, deref, M.bind_apply, M.pure_apply,
                  OpenFile_create, os.MkdirTemp, os.WriteFile, os.Exit, log.Fatalf,
                  log.SetOutput, log.Println, log.Printf, log.Output, Writer.Write,
                  exec.LookPath, exec.Cmd.Start, user.Current, logFlag_append, logFlag_create,
                  logFlag_trunc, h1, h2, h3, h4, h5, h6, h7, hne, Ne.symm hne, Outcome.world,
                  Outcome.exitCode, Outcome.value?, writeAt_end, writeAt_nil]
              | none =>
                refine Or.inr ⟨lp, u, d, rfl, rfl, rfl, rfl, h5, h6, h7, ?_⟩
                simp [-List.length_append, run, main, World.init, initLogFile,
                  extractSplashVideo, handleError, deref, M.bind_apply, M.pure_apply,
                  OpenFile_create, os.MkdirTemp, os.WriteFile, os.File.Close, emit, os.Exit,
                  log.Fatalf, log.SetOutput, log.Println, log.Printf, log.Output, Writer.Write,
                  exec.LookPath, exec.Cmd.Start, user.Current, logFlag_append, logFlag_create,
                  logFlag_trunc, h1, h2, h3, h4, h5, h6, h7, hne, Ne.symm hne, Outcome.world,
                  Outcome.exitCode, Outcome.value?, writeAt_end, writeAt_nil]

/-- To show a property of every way of cutting a list at one of its elements,
it is enough to show it for each position. -/
theorem forall_split_of_forall_index {α : Type} (l : List α) (P : List α → α → List α → Prop)
    (hP : ∀ (i : Nat) (x : α), l[i]? = some x → P (l.take i) x (l.drop (i + 1))) :
    ∀ (pre : List α) (x : α) (post : List α), l = pre ++ x :: post → P pre x post := by
  intro pre x post h
  subst h
  have h1 := hP pre.length x
    (List.getElem?_eq_some.mpr ⟨by simp, List.getElem_of_append rfl rfl⟩)
  simpa using h1

theorem Join_home_suffix (h : String) :
    ∃ x : List Char,
      (filepath.Join [h, "AppData", "Local", "Playnite", "Playnite.fullscreenapp.exe"]).data
        = x ++ "Playnite.fullscreenapp.exe".data := by
  by_cases hd : h = ""
  · subst hd
    exact ⟨"AppData/Local/Playnite/".data, by decide⟩
  · have hne : (h ++ "/AppData/Local/Playnite").data ≠ [] := by
      simp [String.data_append]
    obtain ⟨o, -, hoe⟩ := filepath.Clean_append_elem (h ++ "/AppData/Local/Playnite").data
      "Playnite.fullscreenapp.exe".data hne filepath.plainElem_exe
    have hj : filepath.Join [h, "AppData", "Local", "Playnite", "Playnite.fullscreenapp.exe"]
        = filepath.Clean (String.mk ((h ++ "/AppData/Local/Playnite").data
            ++ filepath.Separator :: "Playnite.fullscreenapp.exe".data)) := by
      have e1 : String.mk ((h ++ "/AppData/Local/Playnite").data
            ++ filepath.Separator :: "Playnite.fullscreenapp.exe".data)
          = h ++ "/" ++ "AppData" ++ "/" ++ "Local" ++ "/" ++ "Playnite" ++ "/"
              ++ "Playnite.fullscreenapp.exe" := by
        apply String.ext
        simp [String.data_append, filepath.Separator]
      rw [e1]
      simp [filepath.Join, filepath.dropEmpty, hd, strings.Join, String.intercalate,
        String.intercalate.go, filepath.Separator, String.singleton]
      rfl
    rw [hj, hoe]
    exact ⟨_, rfl⟩

/-- The path of the target application is never the bare name `vlc`. -/
theorem Join_home_ne_vlc (h : String) :
    filepath.Join [h, "AppData", "Local", "Playnite", "Playnite.fullscreenapp.exe"] ≠ "vlc" := by
  obtain ⟨x, hx⟩ := Join_home_suffix h
  intro h0
  rw [h0] at hx
  have h1 := congrArg List.length hx
  simp at h1

set_option maxHeartbeats 4000000 in
/-- C7: in every run, whenever the start of a command with program name `vlc`
(the head of its argument vector) is attempted, the command is the player
command for some path `p` (its last argument), a successful write of the
embedded bytes to `p` occurs earlier in the run, no failed write occurs in the
run, and the file at `p` holds the embedded bytes when the run ends. -/
theorem main_write_before_player (env : Env) (videoContent : Bytes)
    (files : String → Option Bytes) (dirs : String → Bool) (pre post : List Event)
    (c : exec.Cmd) (ok : Bool)
    (h : (run env videoContent files dirs).world.trace = pre ++ Event.start c ok :: post)
    (hvlc : c.Args.head? = some "vlc") :
    ∃ p : String, c = prepareVLCCommand p
      ∧ c.Args.getLast? = some p
      ∧ Event.writeFile p videoContent true ∈ pre
      ∧ (∀ n b, Event.writeFile n b false ∉ (run env videoContent files dirs).world.trace)
      ∧ (run env videoContent files dirs).world.files p = some videoContent := by
  revert h hvlc c ok
  suffices hs : ∀ (pre : List Event) (x : Event) (post : List Event),
      (run env videoContent files dirs).world.trace = pre ++ x :: post →
      ∀ (c : exec.Cmd) (ok : Bool), x = Event.start c ok → c.Args.head? = some "vlc" →
      ∃ p : String, c = prepareVLCCommand p
        ∧ c.Args.getLast? = some p
        ∧ Event.writeFile p videoContent true ∈ pre
        ∧ (∀ n b, Event.writeFile n b false ∉ (run env videoContent files dirs).world.trace)
        ∧ (run env videoContent files dirs).world.files p = some videoContent by
    intro c ok h hvlc
    exact hs pre _ post h c ok rfl hvlc
  clear pre post
  apply forall_split_of_forall_index
  intro i x hx c ok hxc hvlc
  subst hxc
  obtain ⟨hi, -⟩ := List.getElem?_eq_some.mp hx
  rcases run_cases env videoContent files dirs with
    ⟨e, -, -, -, -, -, ht⟩ | ⟨e, -, -, -, -, -, -, ht⟩ | ⟨lp, e, -, -, -, -, -, ht⟩
    | ⟨lp, u, e, -, -, -, -, -, -, ht⟩ | ⟨lp, u, d, fl, -, -, -, -, -, -, -, ht⟩
    | ⟨lp, u, d, e, -, -, -, -, -, -, -, -, hfile, ht⟩
    | ⟨lp, u, d, e, -, -, -, -, -, -, -, -, -, hfile, ht⟩
    | ⟨lp, u, d, -, -, -, -, -, -, -, -, -, hfile, ht⟩
  all_goals
    rw [ht] at hx hi ⊢
    simp only [List.length_cons, List.length_nil] at hi
    interval_cases i <;> simp at hx
  all_goals
    obtain ⟨rfl, rfl⟩ := hx
    first
    | exact absurd (by simpa [exec.Command] using hvlc) (Join_home_ne_vlc _)
    | exact ⟨_, rfl, by simp [prepareVLCCommand, exec.Command], by simp, by simp, hfile⟩

/-- C4: in every environment in which the lookup of `vlc` fails, the run exits
with code 1 and `exit 1` is its last call; every call of the run is the open
of the log file, the redirection of the logger, a log record, the failed
lookup of `vlc` or the exit; no process start is attempted, the current user
is not queried, no directory is created and no file other than the log file is
touched. -/
theorem main_vlc_missing (env : Env) (videoContent : Bytes) (files : String → Option Bytes)
    (dirs : String → Bool) (e : GoError) (h : env.lookPath "vlc" = .error e) :
    (run env videoContent files dirs).exitCode = 1
      ∧ (run env videoContent files dirs).value? = none
      ∧ (run env videoContent files dirs).world.trace.getLast? = some (.exit 1)
      ∧ (∀ ev ∈ (run env videoContent files dirs).world.trace,
          (∃ ok, ev = .openFile "logFile.log" (os.O_APPEND ||| os.O_RDWR ||| os.O_CREATE) ok)
          ∨ (∃ out, ev = .setOutput out) ∨ (∃ s, ev = .logOutput s)
          ∨ ev = .lookPath "vlc" false ∨ ev = .exit 1)
      ∧ startedCmds (run env videoContent files dirs).world.trace = []
      ∧ (run env videoContent files dirs).world.dirs = dirs
      ∧ (∀ p, p ≠ "logFile.log" → (run env videoContent files dirs).world.files p = files p) := by
  rcases run_cases env videoContent files dirs with
    ⟨e, -, hc, hv, hd, hfs, ht⟩ | ⟨e, -, -, hc, hv, hd, hfs, ht⟩ | ⟨lp, e, -, h2, -⟩
    | ⟨lp, u, e, -, h2, -⟩ | ⟨lp, u, d, fl, -, h2, -⟩
    | ⟨lp, u, d, e, -, h2, -⟩
    | ⟨lp, u, d, e, -, h2, -⟩
    | ⟨lp, u, d, -, h2, -⟩
  · refine ⟨hc, hv, ?_, ?_, ?_, hd, ?_⟩
    · simp [ht]
    · simp [ht]
    · simp [ht, startedCmds, Event.startCmd?]
    · intro p _; rw [hfs]
  · refine ⟨hc, hv, ?_, ?_, ?_, hd, hfs⟩
    · simp [ht]
    · simp [ht]
    · simp [ht, startedCmds, Event.startCmd?]
  all_goals
    rw [h] at h2
    exact absurd h2 (by simp)

set_option maxHeartbeats 2000000 in
/-- C5: a run exits with code 0 exactly when the log file opens, `vlc` is found,
the current user is resolved, the temporary directory is created, the video is
written and both process starts succeed.  Otherwise the exit code is 1, `main`
does not return, and the run consists of calls none of which failed, then the
one failed call, then the fatal log record and the exit: nothing is attempted
after the first failure.  When the exit code is 0 no call of the run failed. -/
theorem main_exit_code (env : Env) (videoContent : Bytes) (files : String → Option Bytes)
    (dirs : String → Bool) :
    ((run env videoContent files dirs).exitCode = 0 ↔
        env.openFile "logFile.log" = none
        ∧ (∃ lp, env.lookPath "vlc" = .ok lp)
        ∧ ∃ u d, env.userCurrent = .ok u ∧ env.mkdirTemp "" "splash" = .ok d
          ∧ env.writeFile (filepath.Join [d, "splash.mp4"]) = none
          ∧ env.start (prepareVLCCommand (filepath.Join [d, "splash.mp4"])) = none
          ∧ env.start (exec.Command (filepath.Join [u.HomeDir, "AppData", "Local", "Playnite",
              "Playnite.fullscreenapp.exe"]) ["--hidesplashscreen"]) = none)
      ∧ ((run env videoContent files dirs).exitCode ≠ 0 →
          (run env videoContent files dirs).exitCode = 1
          ∧ (run env videoContent files dirs).value? = none
          ∧ ∃ (pre : List Event) (ev : Event) (s : String),
              (run env videoContent files dirs).world.trace
                = pre ++ [ev, .logOutput s, .exit 1]
              ∧ ev.failed = true ∧ ∀ e ∈ pre, e.failed = false)
      ∧ ((run env videoContent files dirs).exitCode = 0 →
          (run env videoContent files dirs).value? = some ()
          ∧ ∀ e ∈ (run env videoContent files dirs).world.trace, e.failed = false) := by
  rcases run_cases env videoContent files dirs with
    ⟨e, h1, hc, hv, -, -, ht⟩ | ⟨e, h1, h2, hc, hv, -, -, ht⟩ | ⟨lp, e, h1, h2, h3, hc, hv, ht⟩
    | ⟨lp, u, e, h1, h2, h3, h4, hc, hv, ht⟩ | ⟨lp, u, d, fl, h1, h2, h3, h4, h5, hc, hv, ht⟩
    | ⟨lp, u, d, e, h1, h2, h3, h4, h5, h6, hc, hv, -, ht⟩
    | ⟨lp, u, d, e, h1, h2, h3, h4, h5, h6, h7, hc, hv, -, ht⟩
    | ⟨lp, u, d, h1, h2, h3, h4, h5, h6, h7, hc, hv, -, ht⟩
  · refine ⟨by simp [hc, h1], fun _ => ⟨hc, hv, [], _, _, ht, by simp [Event.failed]⟩,
      by simp [hc]⟩
  · refine ⟨by simp [hc, h1, h2], fun _ => ⟨hc, hv, List.take 3 (run env videoContent files dirs).world.trace, _, _,
        by rw [ht]; rfl, by simp [ht, Event.failed]⟩,
      by simp [hc]⟩
  · refine ⟨by simp [hc, h1, h2, h3], fun _ => ⟨hc, hv, List.take 4 (run env videoContent files dirs).world.trace, _, _,
        by rw [ht]; rfl, by simp [ht, Event.failed]⟩,
      by simp [hc]⟩
  · refine ⟨by simp [hc, h1, h2, h3, h4],
      fun _ => ⟨hc, hv, List.take 5 (run env videoContent files dirs).world.trace, _, _,
        by rw [ht]; rfl, by simp [ht, Event.failed]⟩, by simp [hc]⟩
  · refine ⟨by simp [hc, h1, h2, h3, h4, h5],
      fun _ => ⟨hc, hv, List.take 6 (run env videoContent files dirs).world.trace, _, _,
        by rw [ht]; rfl, by simp [ht, Event.failed]⟩, by simp [hc]⟩
  · refine ⟨by simp [hc, h1, h2, h3, h4, h5, h6],
      fun _ => ⟨hc, hv, List.take 9 (run env videoContent files dirs).world.trace, _, _,
        by rw [ht]; rfl, by simp [ht, Event.failed]⟩, by simp [hc]⟩
  · refine ⟨by simp [hc, h1, h2, h3, h4, h5, h6, h7],
      fun _ => ⟨hc, hv, List.take 11 (run env videoContent files dirs).world.trace, _, _,
        by rw [ht]; rfl, by simp [ht, Event.failed]⟩, by simp [hc]⟩
  · refine ⟨by simp [hc, h1, h2, h3, h4, h5, h6, h7], fun hne => absurd hc hne,
      fun _ => ⟨hv, by simp [ht, Event.failed]⟩⟩

theorem error_ne_launching (x : String) : "Error: " ++ x ≠ "Launching Playnite...\n" := by
  intro h
  have h1 := congrArg (fun s : String => s.data.head?) h
  simp [String.data_append] at h1

theorem temporary_ne_launching (x : String) :
    "Temporary splash video created at: " ++ x ≠ "Launching Playnite...\n" := by
  intro h
  have h1 := congrArg (fun s : String => s.data.head?) h
  simp [String.data_append] at h1

theorem launching_ne_error (x : String) : "Launching Playnite...\n" ≠ "Error: " ++ x :=
  (error_ne_launching x).symm

theorem launching_ne_temporary (x : String) :
    "Launching Playnite...\n" ≠ "Temporary splash video created at: " ++ x :=
  (temporary_ne_launching x).symm

set_option maxHeartbeats 2000000 in
/-- C9: the two launches are ordered and the second depends on the first.  In
every run the commands whose start is attempted form an initial part of the
pair player command, target command.  In every environment in which the start
of the player command the run builds fails (the command for the video path in
the temporary directory the environment hands out), the run exits with code 1,
at most one start is attempted, every start attempted is a failed start of a
command named `vlc`, the target command is not started, and the record
`Launching Playnite...` is not logged.  Whenever a failed start of a command
other than `vlc` occurs in a run, a successful start of the player command
occurs before it.  And whenever a failed start of a command named `vlc` occurs
in a run, the run exits with code 1, that command is the only one whose start
is attempted, and `Launching Playnite...` is not logged. -/
theorem main_launch_order (env : Env) (videoContent : Bytes) (files : String → Option Bytes)
    (dirs : String → Bool) :
    (∃ p h : String, startedCmds (run env videoContent files dirs).world.trace
        <+: [prepareVLCCommand p,
              exec.Command (filepath.Join [h, "AppData", "Local", "Playnite",
                "Playnite.fullscreenapp.exe"]) ["--hidesplashscreen"]])
      ∧ ((∀ d : String, env.mkdirTemp "" "splash" = .ok d →
            env.start (prepareVLCCommand (filepath.Join [d, "splash.mp4"])) ≠ none) →
          (run env videoContent files dirs).exitCode = 1
          ∧ (startedCmds (run env videoContent files dirs).world.trace).length ≤ 1
          ∧ (∀ c ok, Event.start c ok ∈ (run env videoContent files dirs).world.trace →
              c.Args.head? = some "vlc" ∧ ok = false)
          ∧ (∀ (h : String) (ok : Bool),
              Event.start (exec.Command (filepath.Join [h, "AppData", "Local", "Playnite",
                "Playnite.fullscreenapp.exe"]) ["--hidesplashscreen"]) ok
                ∉ (run env videoContent files dirs).world.trace)
          ∧ Event.logOutput "Launching Playnite...\n"
              ∉ (run env videoContent files dirs).world.trace)
      ∧ (∀ (pre post : List Event) (c : exec.Cmd),
          (run env videoContent files dirs).world.trace = pre ++ Event.start c false :: post →
          c.Args.head? ≠ some "vlc" → ∃ p, Event.start (prepareVLCCommand p) true ∈ pre)
      ∧ (∀ c : exec.Cmd,
          Event.start c false ∈ (run env videoContent files dirs).world.trace →
          c.Args.head? = some "vlc" →
          (run env videoContent files dirs).exitCode = 1
          ∧ startedCmds (run env videoContent files dirs).world.trace = [c]
          ∧ Event.logOutput "Launching Playnite...\n"
              ∉ (run env videoContent files dirs).world.trace) := by
  have hsplit : ∀ (pre : List Event) (x : Event) (post : List Event),
      (run env videoContent files dirs).world.trace = pre ++ x :: post →
      ∀ c : exec.Cmd, x = Event.start c false → c.Args.head? ≠ some "vlc" →
      ∃ p, Event.start (prepareVLCCommand p) true ∈ pre := by
    apply forall_split_of_forall_index
    intro i x hx c hxc hvlc
    subst hxc
    obtain ⟨hi, -⟩ := List.getElem?_eq_some.mp hx
    rcases run_cases env videoContent files dirs with
      ⟨e, -, -, -, -, -, ht⟩ | ⟨e, -, -, -, -, -, -, ht⟩ | ⟨lp, e, -, -, -, -, -, ht⟩
      | ⟨lp, u, e, -, -, -, -, -, -, ht⟩ | ⟨lp, u, d, fl, -, -, -, -, -, -, -, ht⟩
      | ⟨lp, u, d, e, -, -, -, -, -, -, -, -, -, ht⟩
      | ⟨lp, u, d, e, -, -, -, -, -, -, -, -, -, -, ht⟩
      | ⟨lp, u, d, -, -, -, -, -, -, -, -, -, -, ht⟩
    all_goals
      rw [ht] at hx hi ⊢
      simp only [List.length_cons, List.length_nil] at hi
      interval_cases i <;> simp at hx
    all_goals
      subst hx
      first
      | exact absurd rfl hvlc
      | exact ⟨filepath.Join [d, "splash.mp4"], by simp⟩
  refine ⟨?_, ?_, fun pre post c h hc => hsplit pre _ post h c rfl hc, ?_⟩
  · rcases run_cases env videoContent files dirs with
      ⟨e, -, -, -, -, -, ht⟩ | ⟨e, -, -, -, -, -, -, ht⟩ | ⟨lp, e, -, -, -, -, -, ht⟩
      | ⟨lp, u, e, -, -, -, -, -, -, ht⟩ | ⟨lp, u, d, fl, -, -, -, -, -, -, -, ht⟩
      | ⟨lp, u, d, e, -, -, -, -, -, -, -, -, -, ht⟩
      | ⟨lp, u, d, e, -, -, -, -, -, -, -, -, -, -, ht⟩
      | ⟨lp, u, d, -, -, -, -, -, -, -, -, -, -, ht⟩
    · exact ⟨"", "", by simp [ht, startedCmds, Event.startCmd?]⟩
    · exact ⟨"", "", by simp [ht, startedCmds, Event.startCmd?]⟩
    · exact ⟨"", "", by simp [ht, startedCmds, Event.startCmd?]⟩
    · exact ⟨"", "", by simp [ht, startedCmds, Event.startCmd?]⟩
    · exact ⟨"", "", by simp [ht, startedCmds, Event.startCmd?]⟩
    · exact ⟨filepath.Join [d, "splash.mp4"], "", by simp [ht, startedCmds, Event.startCmd?]⟩
    · exact ⟨filepath.Join [d, "splash.mp4"], u.HomeDir,
        by simp [ht, startedCmds, Event.startCmd?]⟩
    · exact ⟨filepath.Join [d, "splash.mp4"], u.HomeDir,
        by simp [ht, startedCmds, Event.startCmd?]⟩
  · intro hfail
    have hstart : (∀ c ok, Event.start c ok ∈ (run env videoContent files dirs).world.trace →
        c.Args.head? = some "vlc" ∧ ok = false) →
        ∀ (h : String) (ok : Bool),
          Event.start (exec.Command (filepath.Join [h, "AppData", "Local", "Playnite",
            "Playnite.fullscreenapp.exe"]) ["--hidesplashscreen"]) ok
            ∉ (run env videoContent files dirs).world.trace := by
      intro hall h ok hmem
      have h1 := (hall _ _ hmem).1
      exact absurd (by simpa [exec.Command] using h1) (Join_home_ne_vlc h)
    rcases run_cases env videoContent files dirs with
      ⟨e, -, hc, -, -, -, ht⟩ | ⟨e, -, -, hc, -, -, -, ht⟩ | ⟨lp, e, -, -, -, hc, -, ht⟩
      | ⟨lp, u, e, -, -, -, -, hc, -, ht⟩ | ⟨lp, u, d, fl, -, -, -, -, -, hc, -, ht⟩
      | ⟨lp, u, d, e, -, -, -, -, -, -, hc, -, -, ht⟩
      | ⟨lp, u, d, e, -, -, -, h4, -, h6, -, -, -, -, ht⟩
      | ⟨lp, u, d, -, -, -, h4, -, h6, -, -, -, -, ht⟩
    · have hall : ∀ c ok, Event.start c ok ∈ (run env videoContent files dirs).world.trace →
          c.Args.head? = some "vlc" ∧ ok = false := by simp [ht]
      exact ⟨hc, by simp [ht, startedCmds, Event.startCmd?], hall, hstart hall,
        by simp [ht, launching_ne_error]⟩
    · have hall : ∀ c ok, Event.start c ok ∈ (run env videoContent files dirs).world.trace →
          c.Args.head? = some "vlc" ∧ ok = false := by simp [ht]
      exact ⟨hc, by simp [ht, startedCmds, Event.startCmd?], hall, hstart hall,
        by simp [ht, launching_ne_error]⟩
    · have hall : ∀ c ok, Event.start c ok ∈ (run env videoContent files dirs).world.trace →
          c.Args.head? = some "vlc" ∧ ok = false := by simp [ht]
      exact ⟨hc, by simp [ht, startedCmds, Event.startCmd?], hall, hstart hall,
        by simp [ht, launching_ne_error]⟩
    · have hall : ∀ c ok, Event.start c ok ∈ (run env videoContent files dirs).world.trace →
          c.Args.head? = some "vlc" ∧ ok = false := by simp [ht]
      exact ⟨hc, by simp [ht, startedCmds, Event.startCmd?], hall, hstart hall,
        by simp [ht, launching_ne_error]⟩
    · have hall : ∀ c ok, Event.start c ok ∈ (run env videoContent files dirs).world.trace →
          c.Args.head? = some "vlc" ∧ ok = false := by simp [ht]
      exact ⟨hc, by simp [ht, startedCmds, Event.startCmd?], hall, hstart hall,
        by simp [ht, launching_ne_error]⟩
    · have hall : ∀ c ok, Event.start c ok ∈ (run env videoContent files dirs).world.trace →
          c.Args.head? = some "vlc" ∧ ok = false := by
        intro c ok hmem
        simp [ht] at hmem
        obtain ⟨rfl, rfl⟩ := hmem
        simp [prepareVLCCommand, exec.Command]
      exact ⟨hc, by simp [ht, startedCmds, Event.startCmd?], hall, hstart hall,
        by simp [ht, launching_ne_error, launching_ne_temporary]⟩
    · exact absurd h6 (hfail d h4)
    · exact absurd h6 (hfail d h4)
  · intro c hmem hvlc
    rcases run_cases env videoContent files dirs with
      ⟨e, -, hc, -, -, -, ht⟩ | ⟨e, -, -, hc, -, -, -, ht⟩ | ⟨lp, e, -, -, -, hc, -, ht⟩
      | ⟨lp, u, e, -, -, -, -, hc, -, ht⟩ | ⟨lp, u, d, fl, -, -, -, -, -, hc, -, ht⟩
      | ⟨lp, u, d, e, -, -, -, -, -, -, hc, -, -, ht⟩
      | ⟨lp, u, d, e, -, -, -, -, -, -, -, hc, -, -, ht⟩
      | ⟨lp, u, d, -, -, -, -, -, -, -, hc, -, -, ht⟩
    all_goals simp [ht] at hmem
    · subst hmem
      exact ⟨hc, by simp [ht, startedCmds, Event.startCmd?],
        by simp [ht, launching_ne_error, launching_ne_temporary]⟩
    · subst hmem
      exact absurd (by simpa [exec.Command] using hvlc) (Join_home_ne_vlc u.HomeDir)

/-- C2 (as amended), for a build in which `path/filepath` is slash-separated
(the flavour of `filepath.Clean` and `filepath.Join` embedded here; not
Windows): in every run in which the current user `u` is resolved, the second
command whose start is attempted is `exec.Command` of the path
`filepath.Join [u.HomeDir, "AppData", "Local", "Playnite",
"Playnite.fullscreenapp.exe"]` with the single argument `--hidesplashscreen`;
and when `u.HomeDir` is in clean form and is neither `/` nor `.`, that path is
`u.HomeDir` followed by `/AppData/Local/Playnite/Playnite.fullscreenapp.exe`. -/
theorem main_target_command (env : Env) (videoContent : Bytes) (files : String → Option Bytes)
    (dirs : String → Bool) (u : user.User) (c : exec.Cmd)
    (hu : env.userCurrent = .ok u)
    (hc : (startedCmds (run env videoContent files dirs).world.trace)[1]? = some c) :
    c = exec.Command (filepath.Join [u.HomeDir, "AppData", "Local", "Playnite",
          "Playnite.fullscreenapp.exe"]) ["--hidesplashscreen"]
      ∧ c.Path = filepath.Join [u.HomeDir, "AppData", "Local", "Playnite",
          "Playnite.fullscreenapp.exe"]
      ∧ c.Args.tail = ["--hidesplashscreen"]
      ∧ (filepath.Clean u.HomeDir = u.HomeDir → u.HomeDir ≠ "/" → u.HomeDir ≠ "." →
          c.Path = u.HomeDir ++ "/AppData/Local/Playnite/Playnite.fullscreenapp.exe") := by
  have key : c = exec.Command (filepath.Join [u.HomeDir, "AppData", "Local", "Playnite",
      "Playnite.fullscreenapp.exe"]) ["--hidesplashscreen"] := by
    rcases run_cases env videoContent files dirs with
      ⟨e, -, -, -, -, -, ht⟩ | ⟨e, -, -, -, -, -, -, ht⟩ | ⟨lp, e, -, -, -, -, -, ht⟩
      | ⟨lp, u1, e, -, -, -, -, -, -, ht⟩ | ⟨lp, u1, d, fl, -, -, -, -, -, -, -, ht⟩
      | ⟨lp, u1, d, e, -, -, -, -, -, -, -, -, -, ht⟩
      | ⟨lp, u1, d, e, -, -, h3, -, -, -, -, -, -, -, ht⟩
      | ⟨lp, u1, d, -, -, h3, -, -, -, -, -, -, -, ht⟩
    all_goals simp [ht, startedCmds, Event.startCmd?] at hc
    all_goals
      rw [hu] at h3
      cases h3
      exact hc.symm
  subst key
  refine ⟨rfl, rfl, rfl, ?_⟩
  intro h1 h2 h3
  exact filepath.Join_home_of_clean u.HomeDir h1 h2 h3

/-- Witness for C2 as amended: in the sample run the second command started is
the target application under the home directory `/home/player`. -/
theorem main_target_command_witness :
    sampleEnv.userCurrent = .ok sampleUser
      ∧ (startedCmds (run sampleEnv sampleVideo noFiles noDirs).world.trace)[1]?
          = some (exec.Command "/home/player/AppData/Local/Playnite/Playnite.fullscreenapp.exe"
              ["--hidesplashscreen"])
      ∧ filepath.Clean sampleUser.HomeDir = sampleUser.HomeDir
      ∧ (exec.Command "/home/player/AppData/Local/Playnite/Playnite.fullscreenapp.exe"
          ["--hidesplashscreen"]).Path
          = sampleUser.HomeDir ++ "/AppData/Local/Playnite/Playnite.fullscreenapp.exe" :=
  ⟨rfl, by decide, by decide,
    (main_target_command sampleEnv sampleVideo noFiles noDirs sampleUser _ rfl
      (by decide)).2.2.2 (by decide) (by decide) (by decide)⟩

/-- Counterexample to C2 as stated, on a slash-separated platform: for the home
directory `/` the target application is started at
`/AppData/Local/Playnite/Playnite.fullscreenapp.exe`, which is not the home
directory followed by `/AppData/Local/Playnite/Playnite.fullscreenapp.exe`. -/
theorem main_target_command_root_home :
    sampleEnvRootHome.userCurrent = .ok { sampleUser with HomeDir := "/" }
      ∧ (startedCmds (run sampleEnvRootHome sampleVideo noFiles noDirs).world.trace)[1]?
          = some (exec.Command "/AppData/Local/Playnite/Playnite.fullscreenapp.exe"
              ["--hidesplashscreen"])
      ∧ (exec.Command "/AppData/Local/Playnite/Playnite.fullscreenapp.exe"
          ["--hidesplashscreen"]).Path
          ≠ "/" ++ "/AppData/Local/Playnite/Playnite.fullscreenapp.exe" :=
  ⟨rfl, by decide, by decide⟩

/-- Witness for C3: the extraction in the sample environment, with the logger
writing to standard error. -/
theorem extractSplashVideo_ok_witness :
    (extractSplashVideo sampleEnv sampleVideo (World.init noFiles noDirs)).value?
        = some ("/tmp/splash1234567890/splash.mp4", none)
      ∧ (extractSplashVideo sampleEnv sampleVideo (World.init noFiles noDirs)).world.files
          "/tmp/splash1234567890/splash.mp4" = some sampleVideo :=
  ⟨by decide,
    by
      obtain ⟨d, -, -, -, -, hfile, -⟩ :=
        extractSplashVideo_ok sampleEnv sampleVideo (World.init noFiles noDirs)
          "/tmp/splash1234567890/splash.mp4" (by decide) (fun f hf => by cases hf)
      exact hfile⟩

/-- Witness for C4: the sample run without `vlc` exits with code 1 and starts
nothing. -/
theorem main_vlc_missing_witness :
    sampleEnvNoVLC.lookPath "vlc" = .error (.errorString "executable file not found")
      ∧ (run sampleEnvNoVLC sampleVideo noFiles noDirs).exitCode = 1
      ∧ startedCmds (run sampleEnvNoVLC sampleVideo noFiles noDirs).world.trace = [] :=
  ⟨rfl, (main_vlc_missing sampleEnvNoVLC sampleVideo noFiles noDirs _ rfl).1,
    (main_vlc_missing sampleEnvNoVLC sampleVideo noFiles noDirs _ rfl).2.2.2.2.1⟩

/-- Witness for C5: the sample run exits with code 0, the sample run without
`vlc` does not. -/
theorem main_exit_code_witness :
    (run sampleEnv sampleVideo noFiles noDirs).exitCode = 0
      ∧ (run sampleEnvNoVLC sampleVideo noFiles noDirs).exitCode = 1 :=
  ⟨(main_exit_code sampleEnv sampleVideo noFiles noDirs).1.mpr
      ⟨rfl, ⟨_, rfl⟩, _, _, rfl, rfl, rfl, rfl, rfl⟩,
    ((main_exit_code sampleEnvNoVLC sampleVideo noFiles noDirs).2.1 (by decide)).1⟩

/-- Witness for C6: the sample run; the argument vectors of the two started
commands are the concrete ones. -/
theorem main_success_witness :
    (run sampleEnv sampleVideo noFiles noDirs).exitCode = 0
      ∧ (run sampleEnv sampleVideo noFiles noDirs).world.files
          "/tmp/splash1234567890/splash.mp4" = some sampleVideo
      ∧ (startedCmds (run sampleEnv sampleVideo noFiles noDirs).world.trace).map exec.Cmd.Args
          = [["vlc", "--fullscreen", "--video-on-top", "--play-and-exit", "--intf", "dummy",
                "--dummy-quiet", "--no-osd", "/tmp/splash1234567890/splash.mp4"],
              ["/home/player/AppData/Local/Playnite/Playnite.fullscreenapp.exe",
                "--hidesplashscreen"]] :=
  have e : filepath.Join ["/tmp/splash1234567890", "splash.mp4"]
      = "/tmp/splash1234567890/splash.mp4" := by decide
  have e2 : filepath.Join [sampleUser.HomeDir, "AppData", "Local", "Playnite",
      "Playnite.fullscreenapp.exe"]
      = "/home/player/AppData/Local/Playnite/Playnite.fullscreenapp.exe" := by decide
  have h := main_success sampleEnv sampleVideo noFiles noDirs "/usr/bin/vlc" sampleUser
    "/tmp/splash1234567890" rfl rfl rfl rfl rfl rfl rfl
  ⟨h.1, by simpa [e] using h.2.2.2.2.1, by simpa [e, e2] using h.2.2.2.2.2.2⟩

/-- Witness for C7: in the sample run with a failing player start, the start
of `vlc` comes after the write of the video. -/
theorem main_write_before_player_witness :
    ∃ p : String, prepareVLCCommand "/tmp/splash1234567890/splash.mp4" = prepareVLCCommand p
      ∧ (prepareVLCCommand "/tmp/splash1234567890/splash.mp4").Args.getLast? = some p
      ∧ Event.writeFile p sampleVideo true
          ∈ (run sampleEnvPlayerFails sampleVideo noFiles noDirs).world.trace.take 9
      ∧ (∀ n b, Event.writeFile n b false
          ∉ (run sampleEnvPlayerFails sampleVideo noFiles noDirs).world.trace)
      ∧ (run sampleEnvPlayerFails sampleVideo noFiles noDirs).world.files p = some sampleVideo :=
  main_write_before_player sampleEnvPlayerFails sampleVideo noFiles noDirs
    ((run sampleEnvPlayerFails sampleVideo noFiles noDirs).world.trace.take 9)
    ((run sampleEnvPlayerFails sampleVideo noFiles noDirs).world.trace.drop 10)
    (prepareVLCCommand "/tmp/splash1234567890/splash.mp4") false (by decide) (by decide)

set_option maxRecDepth 20000 in
/-- Witness for C9: in the sample environment in which only the player command
of the run cannot be started, the run exits with code 1 after that one start
and without logging `Launching Playnite...`; in the one in which the target
cannot be started the player was started before. -/
theorem main_launch_order_witness :
    sampleEnvOnlyPlayerFails.start
        (exec.Command "/home/player/AppData/Local/Playnite/Playnite.fullscreenapp.exe"
          ["--hidesplashscreen"]) = none
      ∧ (run sampleEnvOnlyPlayerFails sampleVideo noFiles noDirs).exitCode = 1
      ∧ Event.logOutput "Launching Playnite...\n"
          ∉ (run sampleEnvOnlyPlayerFails sampleVideo noFiles noDirs).world.trace
      ∧ startedCmds (run sampleEnvOnlyPlayerFails sampleVideo noFiles noDirs).world.trace
          = [prepareVLCCommand "/tmp/splash1234567890/splash.mp4"]
      ∧ ∃ p, Event.start (prepareVLCCommand p) true
          ∈ (run sampleEnvTargetFails sampleVideo noFiles noDirs).world.trace.take 11 :=
  have hfail : ∀ d : String, sampleEnvOnlyPlayerFails.mkdirTemp "" "splash" = .ok d →
      sampleEnvOnlyPlayerFails.start (prepareVLCCommand (filepath.Join [d, "splash.mp4"]))
        ≠ none := by
    intro d hd
    have hd1 : "/tmp/splash1234567890" = d := by
      have hd2 : (Except.ok "/tmp/splash1234567890" : Except GoError String) = .ok d := hd
      exact Except.ok.inj hd2
    subst hd1
    decide
  ⟨by decide,
    ((main_launch_order sampleEnvOnlyPlayerFails sampleVideo noFiles noDirs).2.1 hfail).1,
    ((main_launch_order sampleEnvOnlyPlayerFails sampleVideo noFiles noDirs).2.1 hfail).2.2.2.2,
    ((main_launch_order sampleEnvOnlyPlayerFails sampleVideo noFiles noDirs).2.2.2
      (prepareVLCCommand "/tmp/splash1234567890/splash.mp4") (by decide) (by decide)).2.1,
    (main_launch_order sampleEnvTargetFails sampleVideo noFiles noDirs).2.2.1
      ((run sampleEnvTargetFails sampleVideo noFiles noDirs).world.trace.take 11)
      ((run sampleEnvTargetFails sampleVideo noFiles noDirs).world.trace.drop 12)
      (exec.Command "/home/player/AppData/Local/Playnite/Playnite.fullscreenapp.exe"
        ["--hidesplashscreen"])
      (by decide) (by decide)⟩

/-- Witness for C10: with a full disk the extraction returns the empty path and
the wrapped write error, and the directory stays. -/
theorem extractSplashVideo_fail_witness :
    (extractSplashVideo sampleEnvWriteFails sampleVideo (World.init noFiles noDirs)).value?
        = some ("", some (fmt.Errorf "failed to write splash video to temporary file: "
            (.errorString "no space left on device")))
      ∧ ("" : String) = ""
      ∧ (extractSplashVideo sampleEnvWriteFails sampleVideo (World.init noFiles noDirs)).world.dirs
          "/tmp/splash1234567890" = true :=
  ⟨rfl,
    (extractSplashVideo_fail sampleEnvWriteFails sampleVideo (World.init noFiles noDirs) ""
      (fmt.Errorf "failed to write splash video to temporary file: "
        (.errorString "no space left on device")) rfl).1,
    by decide⟩

end PlayniteBootSplash
